/-
  Formal model of the phoc compositor's view state machine and cursor
  input router (FuriLabs/phoc, files src/view.c, src/cursor.c,
  src/view-child.c), shallowly embedded in Lean 4.

  Modelling conventions:
  * `struct wlr_box` fields are C `int`s, modelled as `Int`.
  * `float`/`double` intermediates (view scale, cursor coordinates) are
    modelled as `ℚ`; a C store of a floating-point expression into an
    `int` field truncates toward zero, modelled by `ctrunc`.
  * The compositor is single threaded; every operation is a pure state
    transformer.  Operations also return a list of `PhocEvent`s recording
    the damage/protocol side effects they issue, so "performs no work"
    claims are expressible as an empty event list.
  * The output layout is modelled with at most one output (`World.output`);
    all claims under study involve a single output.  The spatial queries
    (`wlr_output_layout_*`) then resolve to that output whenever present.
  * move/resize are requests that round-trip through a client configure;
    the model applies them synchronously, i.e. it records the state after
    a compliant client acked the configure (spec §6: each is "a request").
-/
import Mathlib

namespace Phoc

/-- C truncation: converting a `double` to `int` rounds toward zero. -/
def ctrunc (q : ℚ) : Int := if 0 ≤ q then ⌊q⌋ else ⌈q⌉

/-- `struct wlr_box` (wlroots): x/y/width/height as C ints. -/
structure WlrBox where
  x : Int
  y : Int
  width : Int
  height : Int
deriving Repr, DecidableEq

/-- wlroots `wlr_box_empty`: a box is empty iff width or height is ≤ 0. -/
def wlr_box_empty (b : WlrBox) : Bool := b.width ≤ 0 || b.height ≤ 0

/-- `PhocViewState` (view.h): the non-fullscreen part of the state machine. -/
inductive PhocViewState
  | floating
  | maximized
  | tiled
deriving Repr, DecidableEq

/-- Tile directions are a C enum; `PHOC_VIEW_TILE_LEFT = 0`,
`PHOC_VIEW_TILE_RIGHT = 1`.  Kept as `Int` because cursor.c passes the
out-of-range value `-1` for maximize suggestions. -/
def PHOC_VIEW_TILE_LEFT : Int := 0
def PHOC_VIEW_TILE_RIGHT : Int := 1

/-- Per-output state: its box in the layout, the usable area left by
layer-shell reservations, and the exclusive fullscreen slot (`true` iff
occupied by the modelled view). -/
structure PhocOutputState where
  layoutBox : WlrBox
  usableArea : WlrBox
  fullscreenView : Bool
deriving Repr, DecidableEq

/-- The mutable per-view state from view.c (`PhocView` + `PhocViewPrivate`)
restricted to the fields the claims touch.  `fullscreenOnOutput` models
`priv->fullscreen_output != NULL` (pointing at the single output). -/
structure PhocView where
  box : WlrBox
  saved : WlrBox
  state : PhocViewState
  tileDirection : Int
  fullscreenOnOutput : Bool
  pendingCentering : Bool
  scale : ℚ
  scaleToFit : Bool
  wlrSurface : Option Unit
deriving Repr, DecidableEq

/-- The world: the single modelled view plus the (at most one) output of
the layout. -/
structure World where
  view : PhocView
  output : Option PhocOutputState
deriving Repr, DecidableEq

/-- Collaborator results that stay constant during the modelled scenarios:
the surface-type geometry (`phoc_view_get_geometry`), the auto-maximize
policy (`phoc_view_want_auto_maximize`), scaling policy, input focus and
map state used by guard checks. -/
structure ViewCtx where
  geom : WlrBox
  wantAutoMaximize : Bool
  wantScaling : Bool
  globalScaleToFit : Bool
  hasFocus : Bool
deriving Repr, DecidableEq

/-- Observable side effects (damage, protocol configure events) issued by
the state transformers. -/
inductive PhocEvent
  | damageWhole
  | outputDamage
  | setMaximized (flag : Bool)
  | setTiled (flag : Bool)
  | setFullscreen (flag : Bool)
  | forceShellReveal
  | arrangeMaximized
  | arrangeTiled
  | centered
deriving Repr, DecidableEq

/-! ### Predicates from view.c -/

/-- `view_is_fullscreen` (view.c:130): the fullscreen output pointer is set. -/
def view_is_fullscreen (v : PhocView) : Bool := v.fullscreenOnOutput

/-- `view_is_floating` (view.c:97). -/
def view_is_floating (v : PhocView) : Bool :=
  v.state = PhocViewState.floating && !view_is_fullscreen v

/-- `view_is_maximized` (view.c:108). -/
def view_is_maximized (v : PhocView) : Bool :=
  v.state = PhocViewState.maximized && !view_is_fullscreen v

/-- `view_is_tiled` (view.c:119). -/
def view_is_tiled (v : PhocView) : Bool :=
  v.state = PhocViewState.tiled && !view_is_fullscreen v

/-- `phoc_view_is_mapped` (view.c:1894): `return view && view->wlr_surface;`
total over a nullable view pointer. -/
def phoc_view_is_mapped : Option PhocView → Bool
  | none => false
  | some v => v.wlrSurface.isSome

/-- `view_get_output` (view.c:376): the layout output at the view's center.
In a single-output layout `wlr_output_layout_closest_point` followed by
`wlr_output_layout_output_at` yields the output whenever the layout is
non-empty, and NULL otherwise. -/
def view_get_output (w : World) : Option Unit :=
  if w.output.isSome then some () else none

/-! ### Decoration hit test (view.c:191, `view_get_deco_part`) -/

/-- Result of the decoration hit test: `PhocViewDecoPart` is a bitmask;
modelled as one flag per part (NONE = all flags clear).  A titlebar hit
returns early with only the titlebar flag set. -/
structure DecoParts where
  titlebar : Bool
  leftBorder : Bool
  rightBorder : Bool
  topBorder : Bool
  bottomBorder : Bool
deriving Repr, DecidableEq

def DecoParts.none_ : DecoParts := ⟨false, false, false, false, false⟩

/-- Static decoration inputs: whether decorated, border width, titlebar
height, and current surface size (`view->wlr_surface->current`). -/
structure DecoCtx where
  decorated : Bool
  border_width : Int
  titlebar_height : Int
  surface_width : Int
  surface_height : Int
deriving Repr, DecidableEq

/-- `view_get_deco_part` (view.c:191): classify a surface-local point.
`sx`/`sy` are doubles, compared against int bounds. -/
def view_get_deco_part (c : DecoCtx) (sx sy : ℚ) : DecoParts :=
  if !c.decorated then
    DecoParts.none_
  else
    let sw : Int := c.surface_width
    let sh : Int := c.surface_height
    let bw : Int := c.border_width
    let titlebar_h : Int := c.titlebar_height
    if sx > 0 && sx < (sw : ℚ) && sy < 0 && sy > -(c.titlebar_height : ℚ) then
      { DecoParts.none_ with titlebar := true }
    else
      let parts := DecoParts.none_
      let parts :=
        if sy ≥ -((titlebar_h + bw : Int) : ℚ) && sy ≤ ((sh + bw : Int) : ℚ) then
          if sx < 0 && sx > -(bw : ℚ) then
            { parts with leftBorder := true }
          else if sx > (sw : ℚ) && sx < ((sw + bw : Int) : ℚ) then
            { parts with rightBorder := true }
          else parts
        else parts
      let parts :=
        if sx ≥ -(bw : ℚ) && sx ≤ ((sw + bw : Int) : ℚ) then
          if sy > (sh : ℚ) && sy ≤ ((sh + bw : Int) : ℚ) then
            { parts with bottomBorder := true }
          else if sy ≥ -((titlebar_h + bw : Int) : ℚ) && sy < 0 then
            { parts with topBorder := true }
          else parts
        else parts
      parts

/-! ### Touch point registry (cursor.c:441-501) -/

/-- `PhocTouchPoint` (cursor.h): a tracked touch contact in layout
coordinates. -/
structure PhocTouchPoint where
  touch_id : Int
  lx : ℚ
  ly : ℚ
deriving Repr, DecidableEq

/-- The cursor's `GHashTable *touch_points` keyed by touch id, modelled as
an association list without duplicate keys (the hash table's key set). -/
def TouchRegistry := List (Int × PhocTouchPoint)

instance : DecidableEq TouchRegistry := by
  unfold TouchRegistry; infer_instance

/-- Hash-table lookup (`g_hash_table_lookup`). -/
def touchLookup (reg : TouchRegistry) (id : Int) : Option PhocTouchPoint :=
  match reg.find? (fun p => p.1 = id) with
  | some p => some p.2
  | none => none

/-- `g_hash_table_insert`: replaces the value if the key exists (returning
false), otherwise adds the entry (returning true). -/
def touchInsert (reg : TouchRegistry) (id : Int) (tp : PhocTouchPoint) :
    TouchRegistry × Bool :=
  if (touchLookup reg id).isSome then
    (reg.map (fun p => if p.1 = id then (id, tp) else p), false)
  else
    ((id, tp) :: reg, true)

/-- `g_hash_table_remove`: deletes the entry, returns whether it existed. -/
def touchRemove (reg : TouchRegistry) (id : Int) : TouchRegistry × Bool :=
  if (touchLookup reg id).isSome then
    (reg.filter (fun p => !(p.1 = id : Bool)), true)
  else
    (reg, false)

/-- Log records emitted through `g_critical`: consistency errors, never
crashes. -/
inductive LogEvent
  | criticalDuplicateTouch (id : Int)
  | criticalMissingTouch (id : Int)
deriving Repr, DecidableEq

/-- `phoc_cursor_add_touch_point` (cursor.c:441): track a new touch point
at layout coordinates (the `wlr_cursor_absolute_to_layout_coords`
conversion is a collaborator; its result `lx`/`ly` is taken as input).
A duplicate id is reported as a critical error. -/
def phoc_cursor_add_touch_point (reg : TouchRegistry) (id : Int) (lx ly : ℚ) :
    TouchRegistry × List LogEvent × PhocTouchPoint :=
  let touch_point : PhocTouchPoint := { touch_id := id, lx := lx, ly := ly }
  let (reg', inserted) := touchInsert reg id touch_point
  if !inserted then
    (reg', [LogEvent.criticalDuplicateTouch id], touch_point)
  else
    (reg', [], touch_point)

/-- `phoc_cursor_update_touch_point` (cursor.c:464): update a tracked
point's layout coordinates; a missing id is reported as a critical error
and the registry is left untouched (`return NULL`). -/
def phoc_cursor_update_touch_point (reg : TouchRegistry) (id : Int) (lx ly : ℚ) :
    TouchRegistry × List LogEvent × Option PhocTouchPoint :=
  match touchLookup reg id with
  | none => (reg, [LogEvent.criticalMissingTouch id], none)
  | some _ =>
      let tp' : PhocTouchPoint := { touch_id := id, lx := lx, ly := ly }
      ((touchInsert reg id tp').1, [], some tp')

/-- `phoc_cursor_remove_touch_point` (cursor.c:485): drop a tracked point;
a missing id is reported as a critical error. -/
def phoc_cursor_remove_touch_point (reg : TouchRegistry) (id : Int) :
    TouchRegistry × List LogEvent :=
  let (reg', removed) := touchRemove reg id
  if !removed then
    (reg', [LogEvent.criticalMissingTouch id])
  else
    (reg', [])

/-- `phoc_cursor_get_touch_point` (cursor.c:495). -/
def phoc_cursor_get_touch_point (reg : TouchRegistry) (id : Int) :
    Option PhocTouchPoint :=
  touchLookup reg id

/-! ### View children (view-child.c:34 / view.c:837) -/

/-- A `PhocViewChild` tree node: its own mapped flag and the parent chain
(`child->parent`, NULL at the root). -/
inductive PhocViewChild
  | mk (mapped : Bool) (parent : Option PhocViewChild)

def PhocViewChild.mapped : PhocViewChild → Bool
  | .mk m _ => m

def PhocViewChild.parent : PhocViewChild → Option PhocViewChild
  | .mk _ p => p

/-- The loop body of `phoc_view_child_is_mapped`, unrolled on the child
itself: bail out at the first unmapped node, succeed at the chain's root. -/
def PhocViewChild.isMappedWalk : PhocViewChild → Bool
  | .mk m none => if !m then false else true
  | .mk m (some p) => if !m then false else p.isMappedWalk

/-- `phoc_view_child_is_mapped` (view-child.c:34 and identically
view.c:837): `while (child) { if (!child->mapped) return false; child =
child->parent; } return true;` — walk the parent chain; any unmapped
ancestor makes the child effectively unmapped. -/
def phoc_view_child_is_mapped : Option PhocViewChild → Bool
  | none => true
  | some c => c.isMappedWalk

/-- The list of mapped flags along the chain from the child up to the
root, used to state the conjunction property. -/
def PhocViewChild.chainFlags : PhocViewChild → List Bool
  | .mk m none => [m]
  | .mk m (some p) => m :: p.chainFlags

/-- Mapped flags of a nullable child, child first then ancestors. -/
def childChainFlags : Option PhocViewChild → List Bool
  | none => []
  | some c => c.chainFlags

/-! ### Move / resize plumbing (view.c)

The concrete surface implementations apply move/resize through a
configure/ack round trip; the model records the state once a compliant
client acked, collapsing `view_update_position`/`view_update_size` damage
into the request (spec §6 treats each as "a request"). -/

/-- `view_update_position` (view.c:1341): int coordinates; no-op (and no
damage) when the position is unchanged.  Output enter/leave notifications
(`view_update_output`) go to collaborators and are not modelled. -/
def view_update_position (w : World) (x y : Int) : World × List PhocEvent :=
  if w.view.box.x = x ∧ w.view.box.y = y then (w, [])
  else ({ w with view := { w.view with box := { w.view.box with x := x, y := y } } },
        [PhocEvent.damageWhole, PhocEvent.damageWhole])

/-- `phoc_view_move` (view.c:2226): double coordinates compared against the
int box; clears `pending_centering`; the default `move` implementation is
`view_update_position` (double→int truncation at the call). -/
def phoc_view_move (w : World) (x y : ℚ) : World × List PhocEvent :=
  if (w.view.box.x : ℚ) = x ∧ (w.view.box.y : ℚ) = y then (w, [])
  else
    let w := { w with view := { w.view with pendingCentering := false } }
    view_update_position w (ctrunc x) (ctrunc y)

/-- `phoc_view_resize` (view.c:344): dispatch to the surface
implementation; modelled as the acked size (`view_update_size`'s
unchanged-size guard included, its re-center/re-scale cascade is not
triggered by the modelled scenarios). -/
def phoc_view_resize (w : World) (width height : Int) : World × List PhocEvent :=
  if w.view.box.width = width ∧ w.view.box.height = height then (w, [])
  else ({ w with view :=
            { w.view with box := { w.view.box with width := width, height := height } } },
        [PhocEvent.damageWhole, PhocEvent.damageWhole])

/-- `phoc_view_move_resize` (view.c:352): dispatch on which of
position/size actually change. -/
def phoc_view_move_resize (w : World) (x y : ℚ) (width height : Int) :
    World × List PhocEvent :=
  if x = (w.view.box.x : ℚ) ∧ y = (w.view.box.y : ℚ) then
    phoc_view_resize w width height
  else if width = w.view.box.width ∧ height = w.view.box.height then
    phoc_view_move w x y
  else
    ({ w with view := { w.view with box := ⟨ctrunc x, ctrunc y, width, height⟩ } },
     [PhocEvent.damageWhole, PhocEvent.damageWhole])

/-! ### Saving and arranging (view.c) -/

/-- `view_save` (view.c:282): back up the window state, only while
floating.  `saved.x/y` are int fields receiving a double expression. -/
def view_save (w : World) (ctx : ViewCtx) : World :=
  if !view_is_floating w.view then w
  else
    { w with view := { w.view with saved :=
        { x := ctrunc ((w.view.box.x : ℚ) + (ctx.geom.x : ℚ) * w.view.scale),
          y := ctrunc ((w.view.box.y : ℚ) + (ctx.geom.y : ℚ) * w.view.scale),
          width := w.view.box.width,
          height := w.view.box.height } } }

/-- `phoc_view_get_maximized_box` (view.c:400): the target box on the
resolved output's usable area, divided by the view scale.  The `output`
parameter and `phoc_view_get_output` both resolve to the layout's single
output when present. -/
def phoc_view_get_maximized_box (w : World)
    (output : Option Unit) : Option WlrBox :=
  if view_is_fullscreen w.view then none
  else
    match output, w.output with
    | _, none => none
    | _, some o =>
        let ux : Int := o.usableArea.x + o.layoutBox.x
        let uy : Int := o.usableArea.y + o.layoutBox.y
        some { x := ctrunc ((ux : ℚ) / w.view.scale),
               y := ctrunc ((uy : ℚ) / w.view.scale),
               width := ctrunc ((o.usableArea.width : ℚ) / w.view.scale),
               height := ctrunc ((o.usableArea.height : ℚ) / w.view.scale) }

/-- `view_arrange_maximized` (view.c:432): shift the maximized box by the
scaled geometry offset (int assignments of double expressions) and issue
the move/resize. -/
def view_arrange_maximized (w : World) (ctx : ViewCtx) (output : Option Unit) :
    World × List PhocEvent :=
  match phoc_view_get_maximized_box w output with
  | none => (w, [])
  | some box =>
      let bx : Int := ctrunc ((box.x : ℚ) - (ctx.geom.x : ℚ) / w.view.scale)
      let by_ : Int := ctrunc ((box.y : ℚ) - (ctx.geom.y : ℚ) / w.view.scale)
      let (w', es) := phoc_view_move_resize w (bx : ℚ) (by_ : ℚ) box.width box.height
      (w', PhocEvent.arrangeMaximized :: es)

/-- `phoc_view_get_tiled_box` (view.c:467): half-width box anchored left or
right of the resolved output's usable area.  An invalid direction aborts
via `g_error` in C (unreachable from the modelled callers); modelled as no
box. -/
def phoc_view_get_tiled_box (w : World) (dir : Int)
    (output : Option Unit) : Option WlrBox :=
  if view_is_fullscreen w.view then none
  else
    match output, w.output with
    | _, none => none
    | _, some o =>
        let ux : Int := o.usableArea.x + o.layoutBox.x
        let uy : Int := o.usableArea.y + o.layoutBox.y
        if dir = PHOC_VIEW_TILE_LEFT ∨ dir = PHOC_VIEW_TILE_RIGHT then
          let x : Int :=
            if dir = PHOC_VIEW_TILE_LEFT then ux
            else ctrunc ((ux : ℚ) + (1/2 : ℚ) * (o.usableArea.width : ℚ))
          some { x := ctrunc ((x : ℚ) / w.view.scale),
                 y := ctrunc ((uy : ℚ) / w.view.scale),
                 width := ctrunc (((o.usableArea.width.tdiv 2) : ℚ) / w.view.scale),
                 height := ctrunc ((o.usableArea.height : ℚ) / w.view.scale) }
        else none

/-- `view_arrange_tiled` (view.c:516): arrange for the view's current tile
direction. -/
def view_arrange_tiled (w : World) (ctx : ViewCtx) (output : Option Unit) :
    World × List PhocEvent :=
  match phoc_view_get_tiled_box w w.view.tileDirection output with
  | none => (w, [])
  | some box =>
      let bx : Int := ctrunc ((box.x : ℚ) - (ctx.geom.x : ℚ) / w.view.scale)
      let by_ : Int := ctrunc ((box.y : ℚ) - (ctx.geom.y : ℚ) / w.view.scale)
      let (w', es) := phoc_view_move_resize w (bx : ℚ) (by_ : ℚ) box.width box.height
      (w', PhocEvent.arrangeTiled :: es)

/-! ### The state machine transitions (view.c) -/

/-- `view_maximize` (view.c:540): no-op when already maximized on the
requested output or when fullscreen; otherwise update the client flags,
save the floating geometry and arrange into the maximized box. -/
def view_maximize (w : World) (ctx : ViewCtx) (output : Option Unit) :
    World × List PhocEvent :=
  if view_is_maximized w.view ∧ view_get_output w = output then (w, [])
  else if view_is_fullscreen w.view then (w, [])
  else
    let w := view_save w ctx
    let w := { w with view := { w.view with state := PhocViewState.maximized } }
    let (w', es) := view_arrange_maximized w ctx output
    (w', [PhocEvent.setTiled false, PhocEvent.setMaximized true] ++ es)

/-- `view_auto_maximize` (view.c:570): maximize only under the
auto-maximize policy (`phoc_view_want_auto_maximize`). -/
def view_auto_maximize (w : World) (ctx : ViewCtx) : World × List PhocEvent :=
  if ctx.wantAutoMaximize then view_maximize w ctx none else (w, [])

/-- `view_restore` (view.c:577): return to the saved box when it is
non-empty, else request size (0,0) and defer centering; no-op unless
maximized or tiled, or under auto-maximize policy. -/
def view_restore (w : World) (ctx : ViewCtx) : World × List PhocEvent :=
  if !view_is_maximized w.view ∧ !view_is_tiled w.view then (w, [])
  else if ctx.wantAutoMaximize then (w, [])
  else
    let w1 := { w with view := { w.view with state := PhocViewState.floating } }
    let (w2, es) :=
      if !wlr_box_empty w.view.saved then
        phoc_view_move_resize w1
          ((w.view.saved.x : ℚ) - (ctx.geom.x : ℚ) * w.view.scale)
          ((w.view.saved.y : ℚ) - (ctx.geom.y : ℚ) * w.view.scale)
          w.view.saved.width w.view.saved.height
      else
        let (w2, es) := phoc_view_resize w1 0 0
        ({ w2 with view := { w2.view with pendingCentering := true } }, es)
    (w2, es ++ [PhocEvent.setMaximized false, PhocEvent.setTiled false])

/-- `view_tile` (view.c:752): no-op when fullscreen; save, set the tiled
state and direction, update client flags, arrange. -/
def view_tile (w : World) (ctx : ViewCtx) (direction : Int) (output : Option Unit) :
    World × List PhocEvent :=
  if view_is_fullscreen w.view then (w, [])
  else
    let w := view_save w ctx
    let w := { w with view :=
                 { w.view with state := PhocViewState.tiled, tileDirection := direction } }
    let (w', es) := view_arrange_tiled w ctx output
    (w', [PhocEvent.setMaximized false, PhocEvent.setTiled true] ++ es)

/-- `phoc_view_set_fullscreen` (view.c:621).  Entering occupies the
output's fullscreen slot (evicting a previous occupancy of this view on
re-entry), saves floating geometry and resizes to the full output box;
exiting frees the slot, damages the output and re-applies the remembered
state, then re-evaluates auto-maximize.  An unfocused mapped view may not
enter fullscreen (`g_return_if_fail`).  A NULL resolved output would be
dereferenced in C; the claims assume an output is present. -/
def phoc_view_set_fullscreen (w : World) (ctx : ViewCtx) (fullscreen : Bool)
    (output : Option Unit) : World × List PhocEvent :=
  let was_fullscreen := view_is_fullscreen w.view
  if was_fullscreen ≠ fullscreen ∧ fullscreen ∧ phoc_view_is_mapped (some w.view)
      ∧ ¬ctx.hasFocus then
    (w, [])
  else
    let es0 : List PhocEvent :=
      if was_fullscreen ≠ fullscreen then [PhocEvent.setFullscreen fullscreen] else []
    if fullscreen then
      match output, w.output with
      | _, none => (w, es0)
      | _, some o =>
          let o := if was_fullscreen then { o with fullscreenView := false } else o
          let w := { w with output := some o }
          let w := view_save w ctx
          let (w, es1) := phoc_view_move_resize w
              (o.layoutBox.x : ℚ) (o.layoutBox.y : ℚ) o.layoutBox.width o.layoutBox.height
          let w := { w with
                     output := some { o with fullscreenView := true },
                     view := { w.view with fullscreenOnOutput := true } }
          (w, es0 ++ es1 ++ [PhocEvent.forceShellReveal, PhocEvent.outputDamage])
    else if was_fullscreen then
      match w.output with
      | none => (w, es0)
      | some o =>
          let w := { w with
                     output := some { o with fullscreenView := false },
                     view := { w.view with fullscreenOnOutput := false } }
          let (w, es2) :=
            if w.view.state = PhocViewState.maximized then
              view_arrange_maximized w ctx (some ())
            else if w.view.state = PhocViewState.tiled then
              view_arrange_tiled w ctx (some ())
            else if !wlr_box_empty w.view.saved then
              phoc_view_move_resize w
                ((w.view.saved.x : ℚ) - (ctx.geom.x : ℚ) * w.view.scale)
                ((w.view.saved.y : ℚ) - (ctx.geom.y : ℚ) * w.view.scale)
                w.view.saved.width w.view.saved.height
            else
              let (w2, es) := phoc_view_resize w 0 0
              ({ w2 with view := { w2.view with pendingCentering := true } }, es)
          let (w, es3) := view_auto_maximize w ctx
          (w, es0 ++ [PhocEvent.outputDamage] ++ es2 ++ es3)
    else
      (w, es0)

/-- The scale computation block of `view_update_scale` (view.c:1088-1105):
the min of the width-fit and height-fit ratios, clamped below at 0.5,
then forced to 1.0 when above 1.0 or fullscreen; 1.0 when scale-to-fit is
off.  The C ratios are floats; the model uses exact rationals (the claims
assume a positive box, which avoids the float division-by-zero corner). -/
def updateScaleValue (o : PhocOutputState) (v : PhocView) (globalStf : Bool) : ℚ :=
  if v.scaleToFit || globalStf then
    let scalex : ℚ := (o.usableArea.width : ℚ) / (v.box.width : ℚ)
    let scaley : ℚ := (o.usableArea.height : ℚ) / (v.box.height : ℚ)
    let s := if scaley < scalex then scaley else scalex
    let s := if s < 1/2 then (1/2 : ℚ) else s
    if s > 1 ∨ view_is_fullscreen v then 1 else s
  else 1

/-- `view_update_scale` (view.c:1071): recompute the scale-to-fit factor
and re-arrange when it changed.  `view_center` moves the view via
seat/cursor collaborators; the model records the re-center trigger. -/
def view_update_scale (w : World) (ctx : ViewCtx) : World × List PhocEvent :=
  if !ctx.wantScaling then (w, [])
  else
    match w.output with
    | none => (w, [])
    | some o =>
        let oldscale := w.view.scale
        let scale' : ℚ := updateScaleValue o w.view ctx.globalScaleToFit
        let w' := { w with view := { w.view with scale := scale' } }
        if scale' ≠ oldscale then
          if view_is_maximized w'.view then view_arrange_maximized w' ctx none
          else if view_is_tiled w'.view then view_arrange_tiled w' ctx none
          else (w', [PhocEvent.centered])
        else (w', [])

/-! ### Cursor: modes and edge-snap suggestions (cursor.c) -/

/-- `PhocCursorMode` (cursor.h): passthrough / move / resize grab modes. -/
inductive PhocCursorMode
  | passthrough
  | moveGrab
  | resizeGrab
deriving Repr, DecidableEq

/-- The cursor's transient `view_state` record (cursor.c:51-58): the
pending edge-snap state-change suggestion.  `view`/`output` are the weak
references (of the single modelled view/output); `rect`/`anim` model the
live preview color-rect bling and its animation. -/
structure ViewStateSuggestion where
  view : Option Unit
  state : PhocViewState
  tile_dir : Int
  output : Option Unit
  rect : Bool
  anim : Bool
deriving Repr, DecidableEq

/-- The `PhocCursor` fields the claims touch: current mode, layout-space
cursor position, the grab anchor (`offs_x/offs_y`, `view_x/view_y`) and
the pending suggestion. -/
structure PhocCursor where
  mode : PhocCursorMode
  cursorX : ℚ
  cursorY : ℚ
  offsX : ℚ
  offsY : ℚ
  viewX : ℚ
  viewY : ℚ
  view_state : ViewStateSuggestion
deriving Repr, DecidableEq

/-- Modelled from the spec: `PHOC_EDGE_SNAP_THRESHOLD` lives in cursor.h,
which is not under src/; the spec only states that edge snapping fires
"within a threshold of an output edge", so the threshold is a parameter.
`focusView` models whether `phoc_seat_get_focus_view` returns the modelled
view (NULL otherwise). -/
structure CursorCtx where
  snapThreshold : ℚ
  focusView : Bool
deriving Repr, DecidableEq

/-- `phoc_cursor_suggest_view_state_change` (cursor.c:120): a no-op while
a suggestion is already pending; otherwise record the suggested
state/direction, take weak refs on view and output, create and map the
preview color-rect and start its animation.  When the target box cannot
be computed the function warns and returns after creating the rect but
before starting the animation.  A FLOATING suggestion is
`g_assert_not_reached` in C (no caller passes it). -/
def phoc_cursor_suggest_view_state_change (c : PhocCursor) (w : World)
    (output : Option Unit) (state : PhocViewState) (dir : Int) : PhocCursor :=
  if c.view_state.view.isSome then c
  else
    match state with
    | PhocViewState.floating => c
    | _ =>
        let c := { c with view_state :=
          { c.view_state with
              state := state, tile_dir := dir,
              view := some (), output := output, rect := true } }
        let target :=
          match state with
          | PhocViewState.maximized => phoc_view_get_maximized_box w output
          | _ => phoc_view_get_tiled_box w dir output
        match target with
        | none => c
        | some _ => { c with view_state := { c.view_state with anim := true } }

/-- `phoc_cursor_clear_view_state_change` (cursor.c:201): dispose the
preview rect and animation if a suggestion is pending, then drop the weak
view/output references. -/
def phoc_cursor_clear_view_state_change (c : PhocCursor) : PhocCursor :=
  let c :=
    if c.view_state.view.isSome then
      { c with view_state := { c.view_state with rect := false, anim := false } }
    else c
  { c with view_state := { c.view_state with view := none, output := none } }

/-- `phoc_cursor_update_position` (cursor.c:1025).  The PASSTHROUGH branch
re-runs hit testing against collaborators and the RESIZE branch the
resize-grab arithmetic; neither is exercised by the claims and both leave
the modelled suggestion/view state untouched.  The MOVE branch is
translated in full: fullscreen re-validation, the three edge-snap
suggestions, or clear-suggestion + restore + move. -/
def phoc_cursor_update_position (c : PhocCursor) (w : World) (ctx : ViewCtx)
    (cctx : CursorCtx) : PhocCursor × World × List PhocEvent :=
  match c.mode with
  | PhocCursorMode.passthrough => (c, w, [])
  | PhocCursorMode.resizeGrab => (c, w, [])
  | PhocCursorMode.moveGrab =>
      if !cctx.focusView then (c, w, [])
      else
        match w.output with
        | none => (c, w, [])
        | some o =>
            let dx := c.cursorX - c.offsX
            let dy := c.cursorY - c.offsY
            let output_is_landscape := o.layoutBox.width > o.layoutBox.height
            if view_is_fullscreen w.view then
              let (w', es) := phoc_view_set_fullscreen w ctx true (some ())
              (c, w', es)
            else if c.cursorY < (o.layoutBox.y : ℚ) + cctx.snapThreshold then
              (phoc_cursor_suggest_view_state_change c w (some ())
                 PhocViewState.maximized (-1), w, [])
            else if output_is_landscape
                ∧ c.cursorX < (o.layoutBox.x : ℚ) + cctx.snapThreshold then
              (phoc_cursor_suggest_view_state_change c w (some ())
                 PhocViewState.tiled PHOC_VIEW_TILE_LEFT, w, [])
            else if output_is_landscape
                ∧ c.cursorX > ((o.layoutBox.x + o.layoutBox.width : Int) : ℚ)
                    - cctx.snapThreshold then
              (phoc_cursor_suggest_view_state_change c w (some ())
                 PhocViewState.tiled PHOC_VIEW_TILE_RIGHT, w, [])
            else
              let c' := phoc_cursor_clear_view_state_change c
              let (w1, es1) := view_restore w ctx
              let (w2, es2) := phoc_view_move w1
                  (c.viewX + dx - (ctx.geom.x : ℚ) * w1.view.scale)
                  (c.viewY + dy - (ctx.geom.y : ℚ) * w1.view.scale)
              (c', w2, es1 ++ es2)

/-! ### Derived target-box formulas (used to state the claims) -/

/-- The box `view_arrange_maximized` moves a non-fullscreen view into on
output `o` at view scale `s` with geometry offset `geom`. -/
def arrangeMaximizedBox (o : PhocOutputState) (geom : WlrBox) (s : ℚ) : WlrBox :=
  let ux : Int := o.usableArea.x + o.layoutBox.x
  let uy : Int := o.usableArea.y + o.layoutBox.y
  let mx : Int := ctrunc ((ux : ℚ) / s)
  let my : Int := ctrunc ((uy : ℚ) / s)
  ⟨ctrunc ((mx : ℚ) - (geom.x : ℚ) / s), ctrunc ((my : ℚ) - (geom.y : ℚ) / s),
   ctrunc ((o.usableArea.width : ℚ) / s), ctrunc ((o.usableArea.height : ℚ) / s)⟩

/-- The box `view_arrange_tiled` moves a non-fullscreen view into for a
valid tile direction `dir`. -/
def arrangeTiledBox (o : PhocOutputState) (geom : WlrBox) (s : ℚ) (dir : Int) : WlrBox :=
  let ux : Int := o.usableArea.x + o.layoutBox.x
  let uy : Int := o.usableArea.y + o.layoutBox.y
  let x : Int :=
    if dir = PHOC_VIEW_TILE_LEFT then ux
    else ctrunc ((ux : ℚ) + (1/2 : ℚ) * (o.usableArea.width : ℚ))
  let tx : Int := ctrunc ((x : ℚ) / s)
  let ty : Int := ctrunc ((uy : ℚ) / s)
  ⟨ctrunc ((tx : ℚ) - (geom.x : ℚ) / s), ctrunc ((ty : ℚ) - (geom.y : ℚ) / s),
   ctrunc (((o.usableArea.width.tdiv 2) : ℚ) / s), ctrunc ((o.usableArea.height : ℚ) / s)⟩

/-- The box `view_save` records for a floating view. -/
def savedBoxOf (box : WlrBox) (geom : WlrBox) (s : ℚ) : WlrBox :=
  ⟨ctrunc ((box.x : ℚ) + (geom.x : ℚ) * s), ctrunc ((box.y : ℚ) + (geom.y : ℚ) * s),
   box.width, box.height⟩

/-- The box `view_restore`/fullscreen-exit move a view back into from a
non-empty saved box. -/
def restoreTargetBox (saved : WlrBox) (geom : WlrBox) (s : ℚ) : WlrBox :=
  ⟨ctrunc ((saved.x : ℚ) - (geom.x : ℚ) * s), ctrunc ((saved.y : ℚ) - (geom.y : ℚ) * s),
   saved.width, saved.height⟩

/-! ### Basic lemmas -/

theorem ctrunc_intCast (n : Int) : ctrunc (n : ℚ) = n := by
  unfold ctrunc
  by_cases h : (0 : ℚ) ≤ (n : ℚ) <;> simp [h, Int.floor_intCast, Int.ceil_intCast]

/-- `phoc_view_resize` only changes the box's width/height (plus damage). -/
theorem phoc_view_resize_shape (w : World) (width height : Int) :
    ∃ es, phoc_view_resize w width height =
      ({ w with view := { w.view with
           box := { w.view.box with width := width, height := height } } }, es) := by
  unfold phoc_view_resize
  by_cases h : w.view.box.width = width ∧ w.view.box.height = height
  · refine ⟨[], ?_⟩
    simp only [if_pos h]
    congr 1
    cases w with
    | mk view output =>
        cases view with
        | mk box saved state tdir fso pc sc stf ws =>
            cases box
            simp_all
  · exact ⟨[PhocEvent.damageWhole, PhocEvent.damageWhole], by simp [if_neg h]⟩

/-- `phoc_view_move` sets the box position to the truncated coordinates,
possibly clearing `pending_centering`. -/
theorem phoc_view_move_shape (w : World) (x y : ℚ) :
    ∃ pc es, phoc_view_move w x y =
      ({ w with view := { w.view with
           box := { w.view.box with x := ctrunc x, y := ctrunc y },
           pendingCentering := pc } }, es) := by
  unfold phoc_view_move view_update_position
  by_cases h : (w.view.box.x : ℚ) = x ∧ (w.view.box.y : ℚ) = y
  · refine ⟨w.view.pendingCentering, [], ?_⟩
    simp only [if_pos h]
    obtain ⟨hx, hy⟩ := h
    have hx' : ctrunc x = w.view.box.x := by rw [← hx, ctrunc_intCast]
    have hy' : ctrunc y = w.view.box.y := by rw [← hy, ctrunc_intCast]
    congr 1
    cases w with
    | mk view output =>
        cases view with
        | mk box saved state tdir fso pc sc stf ws =>
            cases box
            simp_all
  · simp only [if_neg h]
    by_cases h2 : w.view.box.x = ctrunc x ∧ w.view.box.y = ctrunc y
    · refine ⟨false, [], ?_⟩
      simp only [if_pos h2]
      obtain ⟨hx, hy⟩ := h2
      congr 1
      cases w with
      | mk view output =>
          cases view with
          | mk box saved state tdir fso pc sc stf ws =>
              cases box
              simp_all
    · exact ⟨false, [PhocEvent.damageWhole, PhocEvent.damageWhole],
        by simp [if_neg h2]⟩

/-- `phoc_view_move_resize` always lands the box on the truncated
requested box, leaving every other view field except
`pending_centering` unchanged. -/
theorem phoc_view_move_resize_shape (w : World) (x y : ℚ) (width height : Int) :
    ∃ pc es, phoc_view_move_resize w x y width height =
      ({ w with view := { w.view with
           box := ⟨ctrunc x, ctrunc y, width, height⟩,
           pendingCentering := pc } }, es) := by
  unfold phoc_view_move_resize
  by_cases h : x = (w.view.box.x : ℚ) ∧ y = (w.view.box.y : ℚ)
  · obtain ⟨hx, hy⟩ := h
    obtain ⟨es, hres⟩ := phoc_view_resize_shape w width height
    refine ⟨w.view.pendingCentering, es, ?_⟩
    simp only [if_pos (And.intro hx hy), hres]
    have hx' : ctrunc x = w.view.box.x := by rw [hx, ctrunc_intCast]
    have hy' : ctrunc y = w.view.box.y := by rw [hy, ctrunc_intCast]
    congr 2
    cases w with
    | mk view output =>
        cases view with
        | mk box saved state tdir fso pc sc stf ws =>
            cases box
            simp_all
  · by_cases h2 : width = w.view.box.width ∧ height = w.view.box.height
    · obtain ⟨hw, hh⟩ := h2
      obtain ⟨pc, es, hmv⟩ := phoc_view_move_shape w x y
      refine ⟨pc, es, ?_⟩
      simp only [if_neg h, if_pos (And.intro hw hh), hmv]
      congr 2
      cases w with
      | mk view output =>
          cases view with
          | mk box saved state tdir fso pc' sc stf ws =>
              cases box
              simp_all
    · exact ⟨w.view.pendingCentering, [PhocEvent.damageWhole, PhocEvent.damageWhole],
        by simp [if_neg h, if_neg h2]⟩

/-! ### Claims -/

/-- Auxiliary: the walk over a child chain equals the conjunction of the
chain's mapped flags. -/
theorem isMappedWalk_eq_all : ∀ c : PhocViewChild,
    c.isMappedWalk = c.chainFlags.all id
  | .mk m none => by
      cases m <;> simp [PhocViewChild.isMappedWalk, PhocViewChild.chainFlags]
  | .mk m (some p) => by
      have ih := isMappedWalk_eq_all p
      cases m <;>
        simp [PhocViewChild.isMappedWalk, PhocViewChild.chainFlags, ih]

/-- C5: `phoc_view_child_is_mapped` computes the conjunction of the mapped
flags along the whole ancestor chain: the child is reported mapped exactly
when every node up to the root (its own flag included) is mapped, and any
false ancestor flag makes it unmapped regardless of the child's own flag. -/
theorem view_child_mapped_conjunction (c : Option PhocViewChild) :
    phoc_view_child_is_mapped c = (childChainFlags c).all id := by
  cases c with
  | none => simp [phoc_view_child_is_mapped, childChainFlags]
  | some c => simp [phoc_view_child_is_mapped, childChainFlags, isMappedWalk_eq_all]

/-- C10: `phoc_view_is_mapped` is total over its nullable argument: a NULL
view yields false (no dereference), and a non-NULL view is mapped exactly
when a wlr_surface is attached. -/
theorem view_is_mapped_total (v : Option PhocView) :
    phoc_view_is_mapped none = false ∧
    (phoc_view_is_mapped v = true ↔ ∃ pv s, v = some pv ∧ pv.wlrSurface = some s) := by
  refine ⟨rfl, ?_⟩
  cases v with
  | none => simp [phoc_view_is_mapped]
  | some pv =>
      cases h : pv.wlrSurface with
      | none => simp [phoc_view_is_mapped, h]
      | some s => simp [phoc_view_is_mapped, h]

/-- C3 counterexample: with border_width=4, titlebar_height=12 and a
100×50 surface, the point (-2,-2) is NOT classified as NONE: it falls in
both the left-border band (x ∈ (-4,0), y ∈ [-16,54]) and the top-border
band (x ∈ [-4,104], y ∈ [-16,0)), so the code returns
LEFT_BORDER|TOP_BORDER. -/
theorem deco_part_corner_cex :
    view_get_deco_part ⟨true, 4, 12, 100, 50⟩ (-2) (-2)
        = { DecoParts.none_ with leftBorder := true, topBorder := true } ∧
      view_get_deco_part ⟨true, 4, 12, 100, 50⟩ (-2) (-2) ≠ DecoParts.none_ := by
  constructor
  · norm_num [view_get_deco_part]
  · norm_num [view_get_deco_part, DecoParts.none_]

/-- C3 (amended): with border_width=4, titlebar_height=12, surface
100×50, `view_get_deco_part` classifies (50,-6) as TITLEBAR, (-2,20) as
LEFT_BORDER, (50,52) as BOTTOM_BORDER, and (-2,-2) as
LEFT_BORDER|TOP_BORDER (the corner point lies inside both overlapping
border bands; the remaining unhandled-corner gap is the region outside
all bands, e.g. below-left of (-0,50+4)). -/
theorem deco_part_boundary :
    view_get_deco_part ⟨true, 4, 12, 100, 50⟩ 50 (-6)
        = { DecoParts.none_ with titlebar := true } ∧
      view_get_deco_part ⟨true, 4, 12, 100, 50⟩ (-2) 20
        = { DecoParts.none_ with leftBorder := true } ∧
      view_get_deco_part ⟨true, 4, 12, 100, 50⟩ 50 52
        = { DecoParts.none_ with bottomBorder := true } ∧
      view_get_deco_part ⟨true, 4, 12, 100, 50⟩ (-2) (-2)
        = { DecoParts.none_ with leftBorder := true, topBorder := true } := by
  refine ⟨?_, ?_, ?_, ?_⟩ <;> norm_num [view_get_deco_part]

/-- Auxiliary: after filtering out a key, lookup for that key fails. -/
theorem touchLookup_filter_ne (l : List (Int × PhocTouchPoint)) (id : Int) :
    touchLookup (l.filter (fun p => !(p.1 = id : Bool))) id = none := by
  induction l with
  | nil => rfl
  | cons a l ih =>
      by_cases ha : a.1 = id
      · simpa [List.filter, ha] using ih
      · simpa [touchLookup, List.filter, List.find?, ha] using ih

/-- Auxiliary: `touchRemove` really removes the key. -/
theorem touchLookup_remove_self (reg : TouchRegistry) (id : Int) :
    touchLookup (touchRemove reg id).1 id = none := by
  unfold touchRemove
  by_cases h : (touchLookup reg id).isSome
  · simpa [h] using touchLookup_filter_ne reg id
  · cases hl : touchLookup reg id with
    | none => simpa [h] using hl
    | some tp => rw [hl] at h; simp at h

/-- C4: the touch-point registry round-trips: for an id that is not yet
tracked, add(id); update(id,x,y); remove(id) leaves no entry for id (and
the update of the tracked id succeeds without any critical report), while
updating an unknown id reports a critical consistency error, returns
failure (NULL) and leaves the registry — hence every tracked point —
unchanged.  All operations are total: a misbehaving client cannot crash
the registry. -/
theorem touch_registry_roundtrip (reg : TouchRegistry) (id : Int) (x y x2 y2 : ℚ)
    (h : touchLookup reg id = none) :
    (phoc_cursor_update_touch_point
        (phoc_cursor_add_touch_point reg id x y).1 id x2 y2).2.1 = []
    ∧ (phoc_cursor_update_touch_point
        (phoc_cursor_add_touch_point reg id x y).1 id x2 y2).2.2 = some ⟨id, x2, y2⟩
    ∧ phoc_cursor_get_touch_point
        (phoc_cursor_remove_touch_point
          (phoc_cursor_update_touch_point
            (phoc_cursor_add_touch_point reg id x y).1 id x2 y2).1 id).1 id = none
    ∧ ∀ (reg2 : TouchRegistry) (uid : Int) (ux uy : ℚ),
        touchLookup reg2 uid = none →
        phoc_cursor_update_touch_point reg2 uid ux uy
          = (reg2, [LogEvent.criticalMissingTouch uid], none) := by
  have hadd : (phoc_cursor_add_touch_point reg id x y).1
      = (id, ⟨id, x, y⟩) :: reg := by
    simp [phoc_cursor_add_touch_point, touchInsert, h]
  have hlook : touchLookup ((id, (⟨id, x, y⟩ : PhocTouchPoint)) :: reg) id
      = some ⟨id, x, y⟩ := by
    simp [touchLookup, List.find?]
  have hupd : phoc_cursor_update_touch_point
      (phoc_cursor_add_touch_point reg id x y).1 id x2 y2
      = ((touchInsert ((id, ⟨id, x, y⟩) :: reg) id ⟨id, x2, y2⟩).1, [],
         some ⟨id, x2, y2⟩) := by
    rw [hadd]
    simp [phoc_cursor_update_touch_point, hlook]
  refine ⟨by rw [hupd], by rw [hupd], ?_, ?_⟩
  · rw [hupd]
    have hrm : (phoc_cursor_remove_touch_point
        (touchInsert ((id, (⟨id, x, y⟩ : PhocTouchPoint)) :: reg) id ⟨id, x2, y2⟩).1 id).1
        = (touchRemove
            (touchInsert ((id, (⟨id, x, y⟩ : PhocTouchPoint)) :: reg) id ⟨id, x2, y2⟩).1 id).1 := by
      unfold phoc_cursor_remove_touch_point
      by_cases hr : (touchRemove
          (touchInsert ((id, (⟨id, x, y⟩ : PhocTouchPoint)) :: reg) id ⟨id, x2, y2⟩).1 id).2 <;>
        simp [hr]
    rw [phoc_cursor_get_touch_point, hrm]
    exact touchLookup_remove_self _ id
  · intro reg2 uid ux uy h2
    simp [phoc_cursor_update_touch_point, h2]

/-- C4 witness: the empty registry with id 5. -/
theorem touch_registry_roundtrip_witness :
    touchLookup ([] : TouchRegistry) 5 = none ∧
    phoc_cursor_get_touch_point
      (phoc_cursor_remove_touch_point
        (phoc_cursor_update_touch_point
          (phoc_cursor_add_touch_point ([] : TouchRegistry) 5 1 2).1 5 3 4).1 5).1 5 = none :=
  ⟨rfl, (touch_registry_roundtrip [] 5 1 2 3 4 rfl).2.2.1⟩

/-- Auxiliary: `view_save` only (possibly) rewrites the saved box. -/
theorem view_save_shape (w : World) (ctx : ViewCtx) :
    ∃ sv, view_save w ctx = { w with view := { w.view with saved := sv } } := by
  unfold view_save
  by_cases h : view_is_floating w.view
  · simp only [h, Bool.not_true, Bool.false_eq_true, if_false]
    exact ⟨_, rfl⟩
  · refine ⟨w.view.saved, ?_⟩
    simp only [h, Bool.not_false, if_true]
  
/-- Auxiliary: `view_arrange_maximized` only (possibly) rewrites the box
and the pending-centering flag. -/
theorem view_arrange_maximized_shape (w : World) (ctx : ViewCtx) (out : Option Unit) :
    ∃ b pc es, view_arrange_maximized w ctx out =
      ({ w with view := { w.view with box := b, pendingCentering := pc } }, es) := by
  unfold view_arrange_maximized
  cases hmb : phoc_view_get_maximized_box w out with
  | none => exact ⟨w.view.box, w.view.pendingCentering, [], rfl⟩
  | some box =>
      obtain ⟨pc, es, hmr⟩ := phoc_view_move_resize_shape w
        ((ctrunc ((box.x : ℚ) - (ctx.geom.x : ℚ) / w.view.scale) : Int) : ℚ)
        ((ctrunc ((box.y : ℚ) - (ctx.geom.y : ℚ) / w.view.scale) : Int) : ℚ)
        box.width box.height
      simp only [ctrunc_intCast] at hmr
      refine ⟨⟨ctrunc ((box.x : ℚ) - (ctx.geom.x : ℚ) / w.view.scale),
               ctrunc ((box.y : ℚ) - (ctx.geom.y : ℚ) / w.view.scale),
               box.width, box.height⟩, pc, PhocEvent.arrangeMaximized :: es, ?_⟩
      dsimp only
      rw [hmr]

/-- Auxiliary: `view_arrange_tiled` only (possibly) rewrites the box and
the pending-centering flag. -/
theorem view_arrange_tiled_shape (w : World) (ctx : ViewCtx) (out : Option Unit) :
    ∃ b pc es, view_arrange_tiled w ctx out =
      ({ w with view := { w.view with box := b, pendingCentering := pc } }, es) := by
  unfold view_arrange_tiled
  cases hmb : phoc_view_get_tiled_box w w.view.tileDirection out with
  | none => exact ⟨w.view.box, w.view.pendingCentering, [], rfl⟩
  | some box =>
      obtain ⟨pc, es, hmr⟩ := phoc_view_move_resize_shape w
        ((ctrunc ((box.x : ℚ) - (ctx.geom.x : ℚ) / w.view.scale) : Int) : ℚ)
        ((ctrunc ((box.y : ℚ) - (ctx.geom.y : ℚ) / w.view.scale) : Int) : ℚ)
        box.width box.height
      simp only [ctrunc_intCast] at hmr
      refine ⟨⟨ctrunc ((box.x : ℚ) - (ctx.geom.x : ℚ) / w.view.scale),
               ctrunc ((box.y : ℚ) - (ctx.geom.y : ℚ) / w.view.scale),
               box.width, box.height⟩, pc, PhocEvent.arrangeTiled :: es, ?_⟩
      dsimp only
      rw [hmr]

/-- Auxiliary: `view_arrange_maximized` leaves every view field except
box and pending-centering (and the output) unchanged. -/
theorem view_arrange_maximized_fields (w : World) (ctx : ViewCtx) (out : Option Unit) :
    (view_arrange_maximized w ctx out).1.view.state = w.view.state
  ∧ (view_arrange_maximized w ctx out).1.view.fullscreenOnOutput = w.view.fullscreenOnOutput
  ∧ (view_arrange_maximized w ctx out).1.view.saved = w.view.saved
  ∧ (view_arrange_maximized w ctx out).1.view.scale = w.view.scale
  ∧ (view_arrange_maximized w ctx out).1.output = w.output := by
  obtain ⟨b, pc, es, hsh⟩ := view_arrange_maximized_shape w ctx out
  rw [hsh]
  simp

/-- Auxiliary: `view_arrange_tiled` leaves every view field except box
and pending-centering (and the output) unchanged. -/
theorem view_arrange_tiled_fields (w : World) (ctx : ViewCtx) (out : Option Unit) :
    (view_arrange_tiled w ctx out).1.view.state = w.view.state
  ∧ (view_arrange_tiled w ctx out).1.view.fullscreenOnOutput = w.view.fullscreenOnOutput
  ∧ (view_arrange_tiled w ctx out).1.view.saved = w.view.saved
  ∧ (view_arrange_tiled w ctx out).1.view.scale = w.view.scale
  ∧ (view_arrange_tiled w ctx out).1.output = w.output := by
  obtain ⟨b, pc, es, hsh⟩ := view_arrange_tiled_shape w ctx out
  rw [hsh]
  simp

/-- C6: `view_maximize` twice in a row is idempotent.  Whenever the first
call leaves the view on the requested output (in particular whenever the
requested output is the view's actual output, or the view is fullscreen),
the second call returns before recomputing any geometry: it performs no
move/resize, no damage and no protocol event (empty event list) and
leaves the world bit-for-bit unchanged. -/
theorem view_maximize_idempotent (w : World) (ctx : ViewCtx) (o : Option Unit)
    (h : view_get_output (view_maximize w ctx o).1 = o) :
    view_maximize (view_maximize w ctx o).1 ctx o = ((view_maximize w ctx o).1, []) := by
  by_cases h1 : view_is_maximized w.view ∧ view_get_output w = o
  · have hfirst : view_maximize w ctx o = (w, []) := by
      unfold view_maximize
      rw [if_pos h1]
    rw [hfirst]
    unfold view_maximize
    rw [if_pos h1]
  · by_cases h2 : view_is_fullscreen w.view
    · have hfirst : view_maximize w ctx o = (w, []) := by
        unfold view_maximize
        rw [if_neg h1, if_pos (by exact h2)]
      rw [hfirst]
      unfold view_maximize
      rw [if_neg h1, if_pos (by exact h2)]
    · have h2' : w.view.fullscreenOnOutput = false := by
        simpa [view_is_fullscreen] using h2
      obtain ⟨sv, hsv⟩ := view_save_shape w ctx
      have hkey : view_maximize w ctx o =
          ((view_arrange_maximized
              { view_save w ctx with view :=
                  { (view_save w ctx).view with state := PhocViewState.maximized } } ctx o).1,
           [PhocEvent.setTiled false, PhocEvent.setMaximized true]
             ++ (view_arrange_maximized
                  { view_save w ctx with view :=
                      { (view_save w ctx).view with state := PhocViewState.maximized } } ctx o).2) := by
        unfold view_maximize
        rw [if_neg h1, if_neg (by exact h2)]
      have hfields := view_arrange_maximized_fields
        { view_save w ctx with view :=
            { (view_save w ctx).view with state := PhocViewState.maximized } } ctx o
      have hst : (view_maximize w ctx o).1.view.state = PhocViewState.maximized := by
        rw [hkey]
        exact hfields.1
      have hfs : (view_maximize w ctx o).1.view.fullscreenOnOutput = false := by
        rw [hkey]
        dsimp only
        rw [hfields.2.1, hsv]
        exact h2'
      have hmax : view_is_maximized (view_maximize w ctx o).1.view = true := by
        simp [view_is_maximized, view_is_fullscreen, hst, hfs]
      generalize hW1 : (view_maximize w ctx o).1 = W1 at h hst hfs hmax ⊢
      unfold view_maximize
      rw [if_pos ⟨hmax, h⟩]

/-- Auxiliary: `view_save` changes neither the output nor any view field
besides the saved box. -/
theorem view_save_fields (w : World) (ctx : ViewCtx) :
    (view_save w ctx).output = w.output
  ∧ (view_save w ctx).view.state = w.view.state
  ∧ (view_save w ctx).view.fullscreenOnOutput = w.view.fullscreenOnOutput
  ∧ (view_save w ctx).view.box = w.view.box
  ∧ (view_save w ctx).view.scale = w.view.scale
  ∧ (view_save w ctx).view.pendingCentering = w.view.pendingCentering := by
  obtain ⟨sv, hsv⟩ := view_save_shape w ctx
  rw [hsv]
  simp

/-- Auxiliary: the non-trivial path of `view_maximize`, spelled out. -/
theorem view_maximize_unfold (w : World) (ctx : ViewCtx) (o : Option Unit)
    (h1 : ¬(view_is_maximized w.view = true ∧ view_get_output w = o))
    (h2 : ¬view_is_fullscreen w.view = true) :
    view_maximize w ctx o =
      ((view_arrange_maximized
          { view_save w ctx with view :=
              { (view_save w ctx).view with state := PhocViewState.maximized } } ctx o).1,
       [PhocEvent.setTiled false, PhocEvent.setMaximized true]
         ++ (view_arrange_maximized
              { view_save w ctx with view :=
                  { (view_save w ctx).view with state := PhocViewState.maximized } } ctx o).2) := by
  unfold view_maximize
  rw [if_neg h1, if_neg h2]

/-- Auxiliary: `view_maximize` never changes the output record. -/
theorem view_maximize_output (w : World) (ctx : ViewCtx) (o : Option Unit) :
    (view_maximize w ctx o).1.output = w.output := by
  by_cases h1 : view_is_maximized w.view ∧ view_get_output w = o
  · unfold view_maximize
    rw [if_pos h1]
  · by_cases h2 : view_is_fullscreen w.view
    · unfold view_maximize
      rw [if_neg h1, if_pos (by exact h2)]
    · rw [view_maximize_unfold w ctx o h1 (by exact h2)]
      dsimp only
      rw [(view_arrange_maximized_fields _ ctx o).2.2.2.2]
      dsimp only
      exact (view_save_fields w ctx).1

/-! ### Concrete fixtures used by witnesses and counterexamples -/

/-- A 200×100 output at the layout origin with no layer-shell
reservations and a free fullscreen slot. -/
def exOutput : PhocOutputState :=
  { layoutBox := ⟨0, 0, 200, 100⟩, usableArea := ⟨0, 0, 200, 100⟩, fullscreenView := false }

/-- A mapped floating view at (10,20), size 30×40, scale 1. -/
def exViewFloating : PhocView :=
  { box := ⟨10, 20, 30, 40⟩, saved := ⟨0, 0, 0, 0⟩, state := PhocViewState.floating,
    tileDirection := 0, fullscreenOnOutput := false, pendingCentering := false,
    scale := 1, scaleToFit := false, wlrSurface := some () }

def exWorld : World := { view := exViewFloating, output := some exOutput }

/-- Collaborators: zero geometry offset, focused, no auto-maximize, no
scale-to-fit. -/
def exCtx : ViewCtx :=
  { geom := ⟨0, 0, 0, 0⟩, wantAutoMaximize := false, wantScaling := false,
    globalScaleToFit := false, hasFocus := true }

/-- C6 witness: maximize a concrete floating view twice on its output. -/
theorem view_maximize_idempotent_witness :
    view_get_output (view_maximize exWorld exCtx (some ())).1 = some () ∧
    view_maximize (view_maximize exWorld exCtx (some ())).1 exCtx (some ())
      = ((view_maximize exWorld exCtx (some ())).1, []) := by
  have h : view_get_output (view_maximize exWorld exCtx (some ())).1 = some () := by
    unfold view_get_output
    rw [view_maximize_output]
    simp [exWorld]
  exact ⟨h, view_maximize_idempotent exWorld exCtx (some ()) h⟩

/-- C9: while an edge-snap suggestion is pending (the cursor's
`view_state.view` weak reference is set), any further call to
`phoc_cursor_suggest_view_state_change` is a no-op: the whole cursor
record — pending view, output, target state, tile direction, preview
rect and animation — is left bit-for-bit unchanged, so a new suggestion
can only be installed once the pending one was cleared or committed. -/
theorem suggest_noop_when_pending (c : PhocCursor) (w : World) (out : Option Unit)
    (st : PhocViewState) (dir : Int) (h : c.view_state.view.isSome = true) :
    phoc_cursor_suggest_view_state_change c w out st dir = c := by
  unfold phoc_cursor_suggest_view_state_change
  rw [if_pos h]

/-- A cursor mid-MOVE with a pending tile-left suggestion, hovering the
top edge zone of `exOutput`. -/
def exPendingTiled : PhocCursor :=
  { mode := PhocCursorMode.moveGrab, cursorX := 100, cursorY := 5,
    offsX := 0, offsY := 0, viewX := 10, viewY := 20,
    view_state := { view := some (), state := PhocViewState.tiled,
                    tile_dir := PHOC_VIEW_TILE_LEFT, output := some (),
                    rect := true, anim := true } }

/-- C9 witness: a concrete pending tiled suggestion absorbs a maximize
suggestion. -/
theorem suggest_noop_when_pending_witness :
    exPendingTiled.view_state.view.isSome = true ∧
    phoc_cursor_suggest_view_state_change exPendingTiled exWorld (some ())
      PhocViewState.maximized (-1) = exPendingTiled :=
  ⟨rfl, suggest_noop_when_pending exPendingTiled exWorld (some ())
     PhocViewState.maximized (-1) rfl⟩

/-- The cursor context for the examples: snap threshold 20, the seat's
focus view present. -/
def exCursorCtx : CursorCtx := { snapThreshold := 20, focusView := true }

/-- C8 counterexample: a MOVE-mode drag of a floating view with the
cursor inside the top edge-snap zone does NOT record a MAXIMIZED
suggestion when another suggestion (here: tile-left) is already pending —
`phoc_cursor_suggest_view_state_change` early-returns, leaving the
pending TILED record in place. -/
theorem edge_snap_suggest_cex :
    view_is_floating exWorld.view = true
    ∧ exPendingTiled.mode = PhocCursorMode.moveGrab
    ∧ exPendingTiled.cursorY < (exOutput.layoutBox.y : ℚ) + exCursorCtx.snapThreshold
    ∧ (phoc_cursor_update_position exPendingTiled exWorld exCtx exCursorCtx).1.view_state.state
        = PhocViewState.tiled
    ∧ (phoc_cursor_update_position exPendingTiled exWorld exCtx exCursorCtx).1.view_state.state
        ≠ PhocViewState.maximized := by
  refine ⟨by norm_num [view_is_floating, view_is_fullscreen, exWorld, exViewFloating], rfl,
    by norm_num [exPendingTiled, exOutput, exCursorCtx], ?_, ?_⟩ <;>
    norm_num [phoc_cursor_update_position, phoc_cursor_suggest_view_state_change,
      exPendingTiled, exWorld, exCtx, exCursorCtx, exOutput, exViewFloating,
      view_is_fullscreen] <;>
    decide

/-- C8 (amended): while interactively moving a floating view with NO
state-change suggestion already pending, dropping the cursor below the
output's top edge plus the snap threshold records a MAXIMIZED suggestion
for that view and output (leaving the view itself untouched); if the
cursor then moves away from all snap edges before release, the suggestion
is cleared without being committed and the view's state remains FLOATING.
(When a suggestion is already pending it is left unchanged instead —
see the counterexample and C9.) -/
theorem edge_snap_suggest_clear (c : PhocCursor) (w : World) (ctx : ViewCtx)
    (cctx : CursorCtx) (o : PhocOutputState)
    (hmode : c.mode = PhocCursorMode.moveGrab)
    (hfocus : cctx.focusView = true)
    (ho : w.output = some o)
    (hfloat : w.view.state = PhocViewState.floating)
    (hfs : w.view.fullscreenOnOutput = false)
    (hpend : c.view_state.view = none)
    (htop : c.cursorY < (o.layoutBox.y : ℚ) + cctx.snapThreshold) :
    ((phoc_cursor_update_position c w ctx cctx).1.view_state.view = some ()
      ∧ (phoc_cursor_update_position c w ctx cctx).1.view_state.state
          = PhocViewState.maximized
      ∧ (phoc_cursor_update_position c w ctx cctx).1.view_state.output = some ()
      ∧ (phoc_cursor_update_position c w ctx cctx).2.1 = w)
    ∧ (∀ cx2 cy2 : ℚ,
        ¬(cy2 < (o.layoutBox.y : ℚ) + cctx.snapThreshold) →
        ¬(o.layoutBox.width > o.layoutBox.height
            ∧ cx2 < (o.layoutBox.x : ℚ) + cctx.snapThreshold) →
        ¬(o.layoutBox.width > o.layoutBox.height
            ∧ cx2 > ((o.layoutBox.x + o.layoutBox.width : Int) : ℚ) - cctx.snapThreshold) →
        (phoc_cursor_update_position
            { (phoc_cursor_update_position c w ctx cctx).1 with
                cursorX := cx2, cursorY := cy2 }
            (phoc_cursor_update_position c w ctx cctx).2.1 ctx cctx).1.view_state.view = none
        ∧ (phoc_cursor_update_position
            { (phoc_cursor_update_position c w ctx cctx).1 with
                cursorX := cx2, cursorY := cy2 }
            (phoc_cursor_update_position c w ctx cctx).2.1 ctx cctx).2.1.view.state
            = PhocViewState.floating) := by
  have hfsb : view_is_fullscreen w.view = false := by
    simp [view_is_fullscreen, hfs]
  have hpend' : c.view_state.view.isSome = false := by
    simp [hpend]
  have hr1 : phoc_cursor_update_position c w ctx cctx
      = ({ c with view_state :=
            { c.view_state with
                state := PhocViewState.maximized, tile_dir := -1,
                view := some (), output := some (), rect := true, anim := true } },
         w, []) := by
    unfold phoc_cursor_update_position
    rw [hmode]
    simp only [hfocus, Bool.not_true, Bool.false_eq_true, if_false, ho, hfsb, if_pos htop]
    unfold phoc_cursor_suggest_view_state_change
    simp only [hpend', Bool.false_eq_true, if_false]
    unfold phoc_view_get_maximized_box
    simp only [hfsb, Bool.false_eq_true, if_false, ho]
    rw [hmode]
  constructor
  · rw [hr1]
    exact ⟨rfl, rfl, rfl, rfl⟩
  · intro cx2 cy2 h1 h2 h3
    rw [hr1]
    have hrest : view_restore w ctx = (w, []) := by
      unfold view_restore
      rw [if_pos ?_]
      constructor <;> simp [view_is_maximized, view_is_tiled, hfloat, hfs]
    obtain ⟨pc, es, hmv⟩ := phoc_view_move_shape w
      (c.viewX + (cx2 - c.offsX) - (ctx.geom.x : ℚ) * w.view.scale)
      (c.viewY + (cy2 - c.offsY) - (ctx.geom.y : ℚ) * w.view.scale)
    unfold phoc_cursor_update_position
    simp only [hfocus, Bool.not_true, Bool.false_eq_true, if_false, ho, hfsb]
    simp only [if_neg h1, if_neg h2, if_neg h3]
    unfold phoc_cursor_clear_view_state_change
    simp only [hrest]
    rw [hmv]
    simp [hmode, hfloat]

/-- A MOVE-mode cursor with no pending suggestion, hovering the top edge
zone. -/
def exMoveCursor : PhocCursor :=
  { mode := PhocCursorMode.moveGrab, cursorX := 100, cursorY := 5,
    offsX := 0, offsY := 0, viewX := 10, viewY := 20,
    view_state := { view := none, state := PhocViewState.floating, tile_dir := 0,
                    output := none, rect := false, anim := false } }

/-- C8 witness: the concrete drag records a MAXIMIZED suggestion. -/
theorem edge_snap_suggest_clear_witness :
    exMoveCursor.view_state.view = none ∧
    exMoveCursor.cursorY < (exOutput.layoutBox.y : ℚ) + exCursorCtx.snapThreshold ∧
    (phoc_cursor_update_position exMoveCursor exWorld exCtx exCursorCtx).1.view_state.state
        = PhocViewState.maximized := by
  have h := edge_snap_suggest_clear exMoveCursor exWorld exCtx exCursorCtx exOutput
    rfl rfl rfl rfl rfl rfl (by norm_num [exMoveCursor, exOutput, exCursorCtx])
  exact ⟨rfl, by norm_num [exMoveCursor, exOutput, exCursorCtx], h.1.2.1⟩

/-- Auxiliary: the scale computation equals the spec's formula: the
minimum of the fit ratios clamped to [1/2, 1], forced to 1 when
fullscreen, and 1 with scale-to-fit off. -/
theorem updateScaleValue_eq (o : PhocOutputState) (v : PhocView) (g : Bool) :
    updateScaleValue o v g =
      if (v.scaleToFit || g) = true then
        (if view_is_fullscreen v = true then 1
         else min 1 (max (1/2)
           (min ((o.usableArea.width : ℚ) / (v.box.width : ℚ))
                ((o.usableArea.height : ℚ) / (v.box.height : ℚ)))))
      else 1 := by
  unfold updateScaleValue
  by_cases hstf : (v.scaleToFit || g) = true
  · rw [if_pos hstf, if_pos hstf]
    dsimp only
    set sx : ℚ := (o.usableArea.width : ℚ) / (v.box.width : ℚ) with hsx
    set sy : ℚ := (o.usableArea.height : ℚ) / (v.box.height : ℚ) with hsy
    have e1 : (if sy < sx then sy else sx) = min sx sy := by
      rcases lt_or_le sy sx with h | h
      · rw [if_pos h, min_eq_right h.le]
      · rw [if_neg (not_lt.mpr h), min_eq_left h]
    rw [e1]
    have e2 : (if min sx sy < 1 / 2 then (1 / 2 : ℚ) else min sx sy)
        = max (1 / 2) (min sx sy) := by
      rcases lt_or_le (min sx sy) (1 / 2) with h | h
      · rw [if_pos h, max_eq_left h.le]
      · rw [if_neg (not_lt.mpr h), max_eq_right h]
    rw [e2]
    by_cases hfs : view_is_fullscreen v = true
    · rw [if_pos hfs, if_pos (Or.inr hfs)]
    · rw [if_neg hfs]
      rcases lt_or_le 1 (max (1 / 2) (min sx sy)) with h | h
      · rw [if_pos (Or.inl h)]
        exact (min_eq_left h.le).symm
      · have hno : ¬(max (1 / 2 : ℚ) (min sx sy) > 1 ∨ view_is_fullscreen v = true) := by
          rintro (h' | h')
          · exact absurd h' (not_lt.mpr h)
          · exact hfs h'
        rw [if_neg hno]
        exact (min_eq_right h).symm
  · simp [hstf]

/-- Auxiliary: the computed scale always lies in [1/2, 1]. -/
theorem updateScaleValue_bounds (o : PhocOutputState) (v : PhocView) (g : Bool) :
    (1 / 2 : ℚ) ≤ updateScaleValue o v g ∧ updateScaleValue o v g ≤ 1 := by
  rw [updateScaleValue_eq]
  by_cases hstf : (v.scaleToFit || g) = true
  · rw [if_pos hstf]
    by_cases hfs : view_is_fullscreen v = true
    · rw [if_pos hfs]
      norm_num
    · rw [if_neg hfs]
      refine ⟨le_min (by norm_num) (le_max_left _ _), min_le_left _ _⟩
  · rw [if_neg hstf]
    norm_num

/-- Auxiliary: the scale field after `view_update_scale` is exactly the
computed value, whichever re-arrangement ran. -/
theorem view_update_scale_value (w : World) (ctx : ViewCtx) (o : PhocOutputState)
    (hw : ctx.wantScaling = true) (ho : w.output = some o) :
    (view_update_scale w ctx).1.view.scale
      = updateScaleValue o w.view ctx.globalScaleToFit := by
  unfold view_update_scale
  simp only [hw, Bool.not_true, Bool.false_eq_true, if_false, ho]
  by_cases hch : updateScaleValue o w.view ctx.globalScaleToFit ≠ w.view.scale
  · rw [if_pos hch]
    split
    · rw [(view_arrange_maximized_fields _ ctx none).2.2.2.1]
    · split
      · rw [(view_arrange_tiled_fields _ ctx none).2.2.2.1]
      · rfl
  · rw [if_neg hch]

/-- Auxiliary: for a non-fullscreen view on an existing output, a
maximized re-arrangement really issues its arrange event. -/
theorem view_arrange_maximized_events (w : World) (ctx : ViewCtx) (out : Option Unit)
    (o : PhocOutputState) (hfs : view_is_fullscreen w.view = false)
    (ho : w.output = some o) :
    ∃ es, (view_arrange_maximized w ctx out).2 = PhocEvent.arrangeMaximized :: es := by
  unfold view_arrange_maximized phoc_view_get_maximized_box
  simp only [hfs, Bool.false_eq_true, if_false, ho]
  exact ⟨_, rfl⟩

/-- Auxiliary: for a non-fullscreen view with a valid tile direction on an
existing output, a tiled re-arrangement really issues its arrange event. -/
theorem view_arrange_tiled_events (w : World) (ctx : ViewCtx) (out : Option Unit)
    (o : PhocOutputState) (hfs : view_is_fullscreen w.view = false)
    (ho : w.output = some o)
    (hdir : w.view.tileDirection = PHOC_VIEW_TILE_LEFT
            ∨ w.view.tileDirection = PHOC_VIEW_TILE_RIGHT) :
    ∃ es, (view_arrange_tiled w ctx out).2 = PhocEvent.arrangeTiled :: es := by
  unfold view_arrange_tiled phoc_view_get_tiled_box
  simp only [hfs, Bool.false_eq_true, if_false, ho, if_pos hdir]
  exact ⟨_, rfl⟩

/-- C7: after `view_update_scale` on a view with scaling wanted, an
existing output and a positive box, the scale lies in [0.5, 1.0]; with
scale-to-fit enabled (per-view or globally) it equals the minimum of the
width-fit and height-fit ratios clamped to [0.5, 1.0] and is forced to
exactly 1.0 when fullscreen; without scale-to-fit it is 1.0; and a scale
change triggers the re-arrangement matching the current state
(re-maximize, re-tile with a valid direction, or re-center). -/
theorem view_update_scale_bounds (w : World) (ctx : ViewCtx) (o : PhocOutputState)
    (hw : ctx.wantScaling = true) (ho : w.output = some o)
    (hbw : 0 < w.view.box.width) (hbh : 0 < w.view.box.height)
    (hdir : w.view.tileDirection = PHOC_VIEW_TILE_LEFT
            ∨ w.view.tileDirection = PHOC_VIEW_TILE_RIGHT) :
    ((1 / 2 : ℚ) ≤ (view_update_scale w ctx).1.view.scale
      ∧ (view_update_scale w ctx).1.view.scale ≤ 1)
    ∧ ((w.view.scaleToFit || ctx.globalScaleToFit) = true →
        (view_update_scale w ctx).1.view.scale =
          if view_is_fullscreen w.view = true then 1
          else min 1 (max (1 / 2)
            (min ((o.usableArea.width : ℚ) / (w.view.box.width : ℚ))
                 ((o.usableArea.height : ℚ) / (w.view.box.height : ℚ)))))
    ∧ ((w.view.scaleToFit || ctx.globalScaleToFit) = false →
        (view_update_scale w ctx).1.view.scale = 1)
    ∧ ((view_update_scale w ctx).1.view.scale ≠ w.view.scale →
        (view_is_maximized w.view = true →
            PhocEvent.arrangeMaximized ∈ (view_update_scale w ctx).2)
        ∧ (view_is_tiled w.view = true →
            PhocEvent.arrangeTiled ∈ (view_update_scale w ctx).2)
        ∧ (view_is_maximized w.view = false ∧ view_is_tiled w.view = false →
            (view_update_scale w ctx).2 = [PhocEvent.centered])) := by
  have hval := view_update_scale_value w ctx o hw ho
  have hbounds := updateScaleValue_bounds o w.view ctx.globalScaleToFit
  refine ⟨?_, ?_, ?_, ?_⟩
  · rw [hval]
    exact hbounds
  · intro hstf
    rw [hval, updateScaleValue_eq, if_pos hstf]
  · intro hstf
    rw [hval, updateScaleValue_eq]
    simp [hstf]
  · intro hch
    rw [hval] at hch
    refine ⟨?_, ?_, ?_⟩
    · intro hm
      have hm' : w.view.state = PhocViewState.maximized
          ∧ w.view.fullscreenOnOutput = false := by
        simpa [view_is_maximized, view_is_fullscreen, Bool.and_eq_true,
          Bool.not_eq_true'] using hm
      unfold view_update_scale
      simp only [hw, Bool.not_true, Bool.false_eq_true, if_false, ho]
      rw [if_pos hch]
      rw [if_pos (show view_is_maximized
          ({ w with view := { w.view with
              scale := updateScaleValue o w.view ctx.globalScaleToFit } } : World).view
            = true by simp [view_is_maximized, view_is_fullscreen, hm'.1, hm'.2])]
      obtain ⟨es, hes⟩ := view_arrange_maximized_events
        { view := { w.view with
            scale := updateScaleValue o w.view ctx.globalScaleToFit },
          output := some o } ctx none o
        (by simp [view_is_fullscreen, hm'.2]) rfl
      dsimp only at hes
      rw [hes]
      exact List.mem_cons_self _ _
    · intro ht
      have ht' : w.view.state = PhocViewState.tiled
          ∧ w.view.fullscreenOnOutput = false := by
        simpa [view_is_tiled, view_is_fullscreen, Bool.and_eq_true,
          Bool.not_eq_true'] using ht
      unfold view_update_scale
      simp only [hw, Bool.not_true, Bool.false_eq_true, if_false, ho]
      rw [if_pos hch]
      rw [if_neg (show ¬ view_is_maximized
          ({ w with view := { w.view with
              scale := updateScaleValue o w.view ctx.globalScaleToFit } } : World).view
            = true by simp [view_is_maximized, ht'.1])]
      rw [if_pos (show view_is_tiled
          ({ w with view := { w.view with
              scale := updateScaleValue o w.view ctx.globalScaleToFit } } : World).view
            = true by simp [view_is_tiled, view_is_fullscreen, ht'.1, ht'.2])]
      obtain ⟨es, hes⟩ := view_arrange_tiled_events
        { view := { w.view with
            scale := updateScaleValue o w.view ctx.globalScaleToFit },
          output := some o } ctx none o
        (by simp [view_is_fullscreen, ht'.2]) rfl
        (by simpa using hdir)
      dsimp only at hes
      rw [hes]
      exact List.mem_cons_self _ _
    · rintro ⟨hm, ht⟩
      unfold view_update_scale
      simp only [hw, Bool.not_true, Bool.false_eq_true, if_false, ho]
      rw [if_pos hch]
      rw [if_neg (show ¬ view_is_maximized
          ({ w with view := { w.view with
              scale := updateScaleValue o w.view ctx.globalScaleToFit } } : World).view
            = true by simp only [view_is_maximized, view_is_fullscreen] at hm ⊢
                      simpa using hm)]
      rw [if_neg (show ¬ view_is_tiled
          ({ w with view := { w.view with
              scale := updateScaleValue o w.view ctx.globalScaleToFit } } : World).view
            = true by simp only [view_is_tiled, view_is_fullscreen] at ht ⊢
                      simpa using ht)]

/-- Collaborators with scaling wanted and global scale-to-fit enabled. -/
def exScaleCtx : ViewCtx :=
  { geom := ⟨0, 0, 0, 0⟩, wantAutoMaximize := false, wantScaling := true,
    globalScaleToFit := true, hasFocus := true }

/-- C7 witness: the concrete floating view's scale ends in [1/2, 1]. -/
theorem view_update_scale_bounds_witness :
    exScaleCtx.wantScaling = true ∧ exWorld.output = some exOutput ∧
    0 < exWorld.view.box.width ∧ 0 < exWorld.view.box.height ∧
    ((1 / 2 : ℚ) ≤ (view_update_scale exWorld exScaleCtx).1.view.scale
      ∧ (view_update_scale exWorld exScaleCtx).1.view.scale ≤ 1) := by
  have h := view_update_scale_bounds exWorld exScaleCtx exOutput rfl rfl
    (by norm_num [exWorld, exViewFloating]) (by norm_num [exWorld, exViewFloating])
    (Or.inl rfl)
  exact ⟨rfl, rfl, by norm_num [exWorld, exViewFloating],
    by norm_num [exWorld, exViewFloating], h.1⟩

/-- Auxiliary: the box that `phoc_view_move_resize` lands on. -/
theorem phoc_view_move_resize_box (w : World) (x y : ℚ) (width height : Int) :
    (phoc_view_move_resize w x y width height).1.view.box
      = ⟨ctrunc x, ctrunc y, width, height⟩ := by
  obtain ⟨pc, es, h⟩ := phoc_view_move_resize_shape w x y width height
  rw [h]

/-- C1 (amended): for a floating view with a positive box, not under the
auto-maximize policy, and whose geometry offset times scale is an integer
on both axes (in particular whenever scale is 1.0 or the geometry offset
is zero), `view_maximize` followed by `view_restore` returns the box to
exactly its pre-maximize x, y, width and height.  (With a fractional
`geom·scale` the saved coordinate is truncated on save and again on
restore, drifting by one unit — see the counterexample.) -/
theorem view_maximize_restore_roundtrip (w : World) (ctx : ViewCtx) (o : Option Unit)
    (hfloat : view_is_floating w.view = true)
    (hbw : 0 < w.view.box.width) (hbh : 0 < w.view.box.height)
    (hauto : ctx.wantAutoMaximize = false)
    (hgx : ∃ k : Int, (ctx.geom.x : ℚ) * w.view.scale = (k : ℚ))
    (hgy : ∃ k : Int, (ctx.geom.y : ℚ) * w.view.scale = (k : ℚ)) :
    (view_restore (view_maximize w ctx o).1 ctx).1.view.box = w.view.box := by
  have hstate : w.view.state = PhocViewState.floating
      ∧ w.view.fullscreenOnOutput = false := by
    simpa [view_is_floating, view_is_fullscreen, Bool.and_eq_true,
      Bool.not_eq_true'] using hfloat
  have h1 : ¬(view_is_maximized w.view = true ∧ view_get_output w = o) := by
    rintro ⟨hm, -⟩
    simp [view_is_maximized, hstate.1] at hm
  have h2 : ¬view_is_fullscreen w.view = true := by
    simp [view_is_fullscreen, hstate.2]
  obtain ⟨kx, hkx⟩ := hgx
  obtain ⟨ky, hky⟩ := hgy
  have hcx : ctrunc ((w.view.box.x : ℚ) + (ctx.geom.x : ℚ) * w.view.scale)
      = w.view.box.x + kx := by
    rw [hkx, show ((w.view.box.x : ℚ) + (kx : ℚ)) = ((w.view.box.x + kx : Int) : ℚ)
          by push_cast; ring,
        ctrunc_intCast]
  have hcy : ctrunc ((w.view.box.y : ℚ) + (ctx.geom.y : ℚ) * w.view.scale)
      = w.view.box.y + ky := by
    rw [hky, show ((w.view.box.y : ℚ) + (ky : ℚ)) = ((w.view.box.y + ky : Int) : ℚ)
          by push_cast; ring,
        ctrunc_intCast]
  have hsave : view_save w ctx =
      { w with view := { w.view with saved :=
          ⟨w.view.box.x + kx, w.view.box.y + ky,
           w.view.box.width, w.view.box.height⟩ } } := by
    unfold view_save
    simp only [hfloat, Bool.not_true, Bool.false_eq_true, if_false, hcx, hcy]
  rw [view_maximize_unfold w ctx o h1 h2]
  dsimp only
  set A := (view_arrange_maximized
      { view_save w ctx with view :=
          { (view_save w ctx).view with state := PhocViewState.maximized } } ctx o).1
    with hA
  have hfield := view_arrange_maximized_fields
    { view_save w ctx with view :=
        { (view_save w ctx).view with state := PhocViewState.maximized } } ctx o
  have hAst : A.view.state = PhocViewState.maximized := by
    rw [hA, hfield.1]
  have hAfs : A.view.fullscreenOnOutput = false := by
    rw [hA, hfield.2.1]
    dsimp only
    rw [hsave]
    exact hstate.2
  have hAsv : A.view.saved =
      ⟨w.view.box.x + kx, w.view.box.y + ky,
       w.view.box.width, w.view.box.height⟩ := by
    rw [hA, hfield.2.2.1]
    dsimp only
    rw [hsave]
  have hAsc : A.view.scale = w.view.scale := by
    rw [hA, hfield.2.2.2.1]
    dsimp only
    rw [hsave]
  have hAmax : view_is_maximized A.view = true := by
    simp [view_is_maximized, view_is_fullscreen, hAst, hAfs]
  unfold view_restore
  rw [if_neg (by rw [hAmax]
                 simp)]
  rw [if_neg (by simp [hauto])]
  dsimp only
  rw [if_pos (by rw [hAsv]
                 simp only [wlr_box_empty]
                 simp
                 omega)]
  rw [phoc_view_move_resize_box, hAsv, hAsc]
  have hx2 : ((((w.view.box.x + kx : Int)) : ℚ) - (ctx.geom.x : ℚ) * w.view.scale)
      = ((w.view.box.x : Int) : ℚ) := by
    rw [hkx]
    push_cast
    ring
  have hy2 : ((((w.view.box.y + ky : Int)) : ℚ) - (ctx.geom.y : ℚ) * w.view.scale)
      = ((w.view.box.y : Int) : ℚ) := by
    rw [hky]
    push_cast
    ring
  dsimp only
  rw [hx2, hy2, ctrunc_intCast, ctrunc_intCast]

/-- Geometry offset 1 on x, everything else as in `exCtx`. -/
def c1Ctx : ViewCtx :=
  { geom := ⟨1, 0, 0, 0⟩, wantAutoMaximize := false, wantScaling := false,
    globalScaleToFit := false, hasFocus := true }

/-- A floating view at x=10 with scale 1/2, so geom.x·scale = 1/2 is
fractional. -/
def c1World : World :=
  { view := { box := ⟨10, 0, 30, 20⟩, saved := ⟨0, 0, 0, 0⟩,
              state := PhocViewState.floating, tileDirection := 0,
              fullscreenOnOutput := false, pendingCentering := false,
              scale := 1/2, scaleToFit := false, wlrSurface := some () },
    output := some ⟨⟨0, 0, 100, 100⟩, ⟨0, 0, 100, 100⟩, false⟩ }

/-- C1 counterexample: with geometry offset 1 and scale 1/2 (both
unchanged throughout), maximize followed by restore moves the floating
view from x=10 to x=9: the saved x truncates 10+0.5 to 10, and the
restore target 10−0.5 truncates to 9. -/
theorem view_maximize_restore_cex :
    view_is_floating c1World.view = true
    ∧ 0 < c1World.view.box.width ∧ 0 < c1World.view.box.height
    ∧ c1Ctx.wantAutoMaximize = false
    ∧ (view_restore (view_maximize c1World c1Ctx (some ())).1 c1Ctx).1.view.box.x = 9
    ∧ c1World.view.box.x = 10 := by
  refine ⟨by norm_num [view_is_floating, view_is_fullscreen, c1World], by norm_num [c1World],
    by norm_num [c1World], rfl, ?_, rfl⟩
  have hne1 : (PhocViewState.floating = PhocViewState.maximized) = False := by simp
  have hne2 : (PhocViewState.maximized = PhocViewState.floating) = False := by simp
  have hne3 : (PhocViewState.maximized = PhocViewState.tiled) = False := by simp
  have hne4 : (PhocViewState.floating = PhocViewState.tiled) = False := by simp
  norm_num [hne1, hne2, hne3, hne4, view_maximize, view_restore, view_save, view_is_maximized, view_is_floating,
    view_is_tiled, view_is_fullscreen, view_get_output, view_arrange_maximized,
    phoc_view_get_maximized_box, phoc_view_move_resize, phoc_view_resize, phoc_view_move,
    view_update_position, wlr_box_empty, ctrunc, c1World, c1Ctx,
    Int.ceil_intCast, Int.floor_intCast, Int.ceil_neg, Int.floor_neg, reduceCtorEq,
    reduceIte]

/-- C1 witness: the round trip at scale 1 and zero geometry offset. -/
theorem view_maximize_restore_roundtrip_witness :
    view_is_floating exWorld.view = true ∧
    (view_restore (view_maximize exWorld exCtx (some ())).1 exCtx).1.view.box
      = exWorld.view.box := by
  have h := view_maximize_restore_roundtrip exWorld exCtx (some ())
    (by norm_num [view_is_floating, view_is_fullscreen, exWorld, exViewFloating])
    (by norm_num [exWorld, exViewFloating])
    (by norm_num [exWorld, exViewFloating])
    rfl
    ⟨0, by norm_num [exCtx, exWorld, exViewFloating]⟩
    ⟨0, by norm_num [exCtx, exWorld, exViewFloating]⟩
  exact ⟨by norm_num [view_is_floating, view_is_fullscreen, exWorld, exViewFloating], h⟩

/-- Auxiliary: `view_save` spelled out: record the saved box only while
floating. -/
theorem view_save_eq (w : World) (ctx : ViewCtx) :
    view_save w ctx =
      { w with view := { w.view with saved :=
          (if view_is_floating w.view then
            savedBoxOf w.view.box ctx.geom w.view.scale
          else w.view.saved) } } := by
  unfold view_save savedBoxOf
  by_cases h : view_is_floating w.view = true
  · simp only [h, Bool.not_true, Bool.false_eq_true, if_false, if_true]
  · simp only [h, Bool.not_false, if_true, Bool.false_eq_true, if_false]

/-- Auxiliary: the box a maximized re-arrangement lands on. -/
theorem view_arrange_maximized_box (w : World) (ctx : ViewCtx) (out : Option Unit)
    (o : PhocOutputState) (hfs : view_is_fullscreen w.view = false)
    (ho : w.output = some o) :
    (view_arrange_maximized w ctx out).1.view.box
      = arrangeMaximizedBox o ctx.geom w.view.scale := by
  unfold view_arrange_maximized phoc_view_get_maximized_box
  simp only [hfs, Bool.false_eq_true, if_false, ho]
  rw [phoc_view_move_resize_box]
  unfold arrangeMaximizedBox
  simp [ctrunc_intCast]

/-- Auxiliary: the box a tiled re-arrangement lands on (valid direction). -/
theorem view_arrange_tiled_box (w : World) (ctx : ViewCtx) (out : Option Unit)
    (o : PhocOutputState) (hfs : view_is_fullscreen w.view = false)
    (ho : w.output = some o)
    (hdir : w.view.tileDirection = PHOC_VIEW_TILE_LEFT
            ∨ w.view.tileDirection = PHOC_VIEW_TILE_RIGHT) :
    (view_arrange_tiled w ctx out).1.view.box
      = arrangeTiledBox o ctx.geom w.view.scale w.view.tileDirection := by
  unfold view_arrange_tiled phoc_view_get_tiled_box
  simp only [hfs, Bool.false_eq_true, if_false, ho, if_pos hdir]
  rw [phoc_view_move_resize_box]
  unfold arrangeTiledBox
  simp [ctrunc_intCast]

/-- Auxiliary: field-wise frame for `phoc_view_move_resize`. -/
theorem phoc_view_move_resize_fields (w : World) (x y : ℚ) (width height : Int) :
    (phoc_view_move_resize w x y width height).1.view.state = w.view.state
  ∧ (phoc_view_move_resize w x y width height).1.view.saved = w.view.saved
  ∧ (phoc_view_move_resize w x y width height).1.view.fullscreenOnOutput
      = w.view.fullscreenOnOutput
  ∧ (phoc_view_move_resize w x y width height).1.view.scale = w.view.scale
  ∧ (phoc_view_move_resize w x y width height).1.view.tileDirection
      = w.view.tileDirection
  ∧ (phoc_view_move_resize w x y width height).1.output = w.output := by
  obtain ⟨pc, es, h⟩ := phoc_view_move_resize_shape w x y width height
  rw [h]
  simp

/-- Auxiliary: what entering fullscreen does to the view's bookkeeping:
state/scale/tile direction survive, the floating geometry is saved, the
box becomes the output box, the slot is taken. -/
theorem set_fullscreen_enter_fields (w : World) (ctx : ViewCtx) (o : PhocOutputState)
    (ho : w.output = some o) (hfs0 : w.view.fullscreenOnOutput = false)
    (hfoc : ctx.hasFocus = true) :
    (phoc_view_set_fullscreen w ctx true (some ())).1.view.state = w.view.state
    ∧ (phoc_view_set_fullscreen w ctx true (some ())).1.view.fullscreenOnOutput = true
    ∧ (phoc_view_set_fullscreen w ctx true (some ())).1.view.scale = w.view.scale
    ∧ (phoc_view_set_fullscreen w ctx true (some ())).1.view.tileDirection
        = w.view.tileDirection
    ∧ (phoc_view_set_fullscreen w ctx true (some ())).1.view.saved
        = (if view_is_floating w.view = true then
             savedBoxOf w.view.box ctx.geom w.view.scale
           else w.view.saved)
    ∧ (phoc_view_set_fullscreen w ctx true (some ())).1.output
        = some { o with fullscreenView := true } := by
  have hwas : view_is_fullscreen w.view = false := by
    simp [view_is_fullscreen, hfs0]
  unfold phoc_view_set_fullscreen
  simp only [hwas, hfoc, ho, Bool.false_eq_true, ne_eq, not_true, and_false,
    false_and, and_true, not_false_iff, if_false, if_true, ite_true, ite_false]
  rw [view_save_eq]
  dsimp only
  refine ⟨?_, trivial, ?_, ?_, ?_⟩
  · rw [(phoc_view_move_resize_fields _ _ _ _ _).1]
  · rw [(phoc_view_move_resize_fields _ _ _ _ _).2.2.2.1]
  · rw [(phoc_view_move_resize_fields _ _ _ _ _).2.2.2.2.1]
  · rw [(phoc_view_move_resize_fields _ _ _ _ _).2.1]

/-- Auxiliary: field-wise frame for `phoc_view_resize`. -/
theorem phoc_view_resize_fields (w : World) (width height : Int) :
    (phoc_view_resize w width height).1.view.state = w.view.state
  ∧ (phoc_view_resize w width height).1.view.fullscreenOnOutput
      = w.view.fullscreenOnOutput
  ∧ (phoc_view_resize w width height).1.output = w.output
  ∧ (phoc_view_resize w width height).1.view.box.width = width
  ∧ (phoc_view_resize w width height).1.view.box.height = height
  ∧ (phoc_view_resize w width height).1.view.pendingCentering
      = w.view.pendingCentering := by
  obtain ⟨es, h⟩ := phoc_view_resize_shape w width height
  rw [h]
  simp

/-- Auxiliary: what exiting fullscreen does: the slot is freed, the output
damaged, and the remembered state re-applied — re-arranged maximized or
tiled, moved back to a non-empty saved box, or resized to (0,0) with
centering deferred. -/
theorem set_fullscreen_exit (w1 : World) (ctx : ViewCtx) (o1 : PhocOutputState)
    (ho1 : w1.output = some o1)
    (hfs1 : w1.view.fullscreenOnOutput = true)
    (hauto : ctx.wantAutoMaximize = false) :
    (phoc_view_set_fullscreen w1 ctx false none).1.view.state = w1.view.state
    ∧ (phoc_view_set_fullscreen w1 ctx false none).1.view.fullscreenOnOutput = false
    ∧ (phoc_view_set_fullscreen w1 ctx false none).1.output
        = some { o1 with fullscreenView := false }
    ∧ (w1.view.state = PhocViewState.maximized →
        (phoc_view_set_fullscreen w1 ctx false none).1.view.box
          = arrangeMaximizedBox o1 ctx.geom w1.view.scale)
    ∧ (w1.view.state = PhocViewState.tiled ∧
        (w1.view.tileDirection = PHOC_VIEW_TILE_LEFT
          ∨ w1.view.tileDirection = PHOC_VIEW_TILE_RIGHT) →
        (phoc_view_set_fullscreen w1 ctx false none).1.view.box
          = arrangeTiledBox o1 ctx.geom w1.view.scale w1.view.tileDirection)
    ∧ (w1.view.state = PhocViewState.floating ∧ wlr_box_empty w1.view.saved = false →
        (phoc_view_set_fullscreen w1 ctx false none).1.view.box
          = restoreTargetBox w1.view.saved ctx.geom w1.view.scale)
    ∧ (w1.view.state = PhocViewState.floating ∧ wlr_box_empty w1.view.saved = true →
        (phoc_view_set_fullscreen w1 ctx false none).1.view.box.width = 0
        ∧ (phoc_view_set_fullscreen w1 ctx false none).1.view.box.height = 0
        ∧ (phoc_view_set_fullscreen w1 ctx false none).1.view.pendingCentering = true) := by
  have hwas1 : view_is_fullscreen w1.view = true := by
    simp [view_is_fullscreen, hfs1]
  unfold phoc_view_set_fullscreen
  simp only [hwas1, ho1, view_auto_maximize, hauto, Bool.false_eq_true, ne_eq,
    and_false, false_and, not_false_iff, if_false, if_true, ite_true, ite_false]
  refine ⟨?_, ?_, ?_, ?_, ?_, ?_, ?_⟩
  · split
    · rw [(view_arrange_maximized_fields _ ctx (some ())).1]
    · split
      · rw [(view_arrange_tiled_fields _ ctx (some ())).1]
      · split
        · rw [(phoc_view_move_resize_fields _ _ _ _ _).1]
        · rw [(phoc_view_resize_fields _ _ _).1]
  · split
    · rw [(view_arrange_maximized_fields _ ctx (some ())).2.1]
    · split
      · rw [(view_arrange_tiled_fields _ ctx (some ())).2.1]
      · split
        · rw [(phoc_view_move_resize_fields _ _ _ _ _).2.2.1]
        · rw [(phoc_view_resize_fields _ _ _).2.1]
  · split
    · rw [(view_arrange_maximized_fields _ ctx (some ())).2.2.2.2]
    · split
      · rw [(view_arrange_tiled_fields _ ctx (some ())).2.2.2.2]
      · split
        · rw [(phoc_view_move_resize_fields _ _ _ _ _).2.2.2.2.2]
        · rw [(phoc_view_resize_fields _ _ _).2.2.1]
  · intro hm
    rw [if_pos (by rw [hm])]
    rw [view_arrange_maximized_box _ ctx (some ())
        ({ o1 with fullscreenView := false }) (by simp [view_is_fullscreen]) rfl]
    simp [arrangeMaximizedBox]
  · rintro ⟨ht, hdir⟩
    rw [if_neg (by rw [ht]
                   simp)]
    rw [if_pos (by rw [ht])]
    rw [view_arrange_tiled_box _ ctx (some ())
        ({ o1 with fullscreenView := false }) (by simp [view_is_fullscreen]) rfl
        (by exact hdir)]
    simp [arrangeTiledBox]
  · rintro ⟨hf, hsv⟩
    rw [if_neg (by rw [hf]
                   simp)]
    rw [if_neg (by rw [hf]
                   simp)]
    rw [if_pos (by rw [hsv]
                   rfl)]
    rw [phoc_view_move_resize_box]
    rfl
  · rintro ⟨hf, hsv⟩
    rw [if_neg (by rw [hf]
                   simp)]
    rw [if_neg (by rw [hf]
                   simp)]
    rw [if_neg (by rw [hsv]
                   simp)]
    refine ⟨?_, ?_, rfl⟩
    · rw [(phoc_view_resize_fields _ _ _).2.2.2.1]
    · rw [(phoc_view_resize_fields _ _ _).2.2.2.2.1]

/-- C2 (amended): entering fullscreen on an output and then leaving it
returns the view to the state held immediately before entering, provided
the view is not subject to the auto-maximize policy (which would
otherwise re-maximize it on exit — see the counterexample): the state
enum is preserved, the view is no longer fullscreen and the output's
fullscreen slot is freed; a maximized view is re-arranged into the
maximized box, a tiled view into its tiled box, a floating view with a
positive box is moved back to the box saved at entry, and a floating view
with an empty box is resized to (0,0) with centering deferred. -/
theorem set_fullscreen_roundtrip (w : World) (ctx : ViewCtx) (o : PhocOutputState)
    (ho : w.output = some o)
    (hfs0 : w.view.fullscreenOnOutput = false)
    (hfoc : ctx.hasFocus = true)
    (hauto : ctx.wantAutoMaximize = false) :
    (phoc_view_set_fullscreen (phoc_view_set_fullscreen w ctx true (some ())).1
        ctx false none).1.view.state = w.view.state
    ∧ (phoc_view_set_fullscreen (phoc_view_set_fullscreen w ctx true (some ())).1
        ctx false none).1.view.fullscreenOnOutput = false
    ∧ (phoc_view_set_fullscreen (phoc_view_set_fullscreen w ctx true (some ())).1
        ctx false none).1.output = some { o with fullscreenView := false }
    ∧ (w.view.state = PhocViewState.maximized →
        (phoc_view_set_fullscreen (phoc_view_set_fullscreen w ctx true (some ())).1
            ctx false none).1.view.box
          = arrangeMaximizedBox o ctx.geom w.view.scale)
    ∧ (w.view.state = PhocViewState.tiled ∧
        (w.view.tileDirection = PHOC_VIEW_TILE_LEFT
          ∨ w.view.tileDirection = PHOC_VIEW_TILE_RIGHT) →
        (phoc_view_set_fullscreen (phoc_view_set_fullscreen w ctx true (some ())).1
            ctx false none).1.view.box
          = arrangeTiledBox o ctx.geom w.view.scale w.view.tileDirection)
    ∧ (w.view.state = PhocViewState.floating ∧ 0 < w.view.box.width
        ∧ 0 < w.view.box.height →
        (phoc_view_set_fullscreen (phoc_view_set_fullscreen w ctx true (some ())).1
            ctx false none).1.view.box
          = restoreTargetBox (savedBoxOf w.view.box ctx.geom w.view.scale)
              ctx.geom w.view.scale)
    ∧ (w.view.state = PhocViewState.floating
        ∧ ¬(0 < w.view.box.width ∧ 0 < w.view.box.height) →
        (phoc_view_set_fullscreen (phoc_view_set_fullscreen w ctx true (some ())).1
            ctx false none).1.view.box.width = 0
        ∧ (phoc_view_set_fullscreen (phoc_view_set_fullscreen w ctx true (some ())).1
            ctx false none).1.view.box.height = 0
        ∧ (phoc_view_set_fullscreen (phoc_view_set_fullscreen w ctx true (some ())).1
            ctx false none).1.view.pendingCentering = true) := by
  obtain ⟨hst1, hfs1, hsc1, htd1, hsv1, hout1⟩ :=
    set_fullscreen_enter_fields w ctx o ho hfs0 hfoc
  obtain ⟨est, efs, eout, emax, etil, eflt, eempty⟩ :=
    set_fullscreen_exit (phoc_view_set_fullscreen w ctx true (some ())).1 ctx
      ({ o with fullscreenView := true }) hout1 hfs1 hauto
  refine ⟨est.trans hst1, efs, ?_, ?_, ?_, ?_, ?_⟩
  · rw [eout]
  · intro hm
    rw [emax (hst1.trans hm), hsc1]
    simp [arrangeMaximizedBox]
  · rintro ⟨ht, hdir⟩
    rw [etil ⟨hst1.trans ht, by rw [htd1]; exact hdir⟩, hsc1, htd1]
    simp [arrangeTiledBox]
  · rintro ⟨hf, hbw, hbh⟩
    have hnf : view_is_floating w.view = true := by
      simp [view_is_floating, view_is_fullscreen, hf, hfs0]
    have hsvv : (phoc_view_set_fullscreen w ctx true (some ())).1.view.saved
        = savedBoxOf w.view.box ctx.geom w.view.scale := by
      rw [hsv1, if_pos hnf]
    have hemp : wlr_box_empty
        (phoc_view_set_fullscreen w ctx true (some ())).1.view.saved = false := by
      rw [hsvv]
      simp only [savedBoxOf, wlr_box_empty]
      simp
      omega
    rw [eflt ⟨hst1.trans hf, hemp⟩, hsvv, hsc1]
  · rintro ⟨hf, hbe⟩
    have hnf : view_is_floating w.view = true := by
      simp [view_is_floating, view_is_fullscreen, hf, hfs0]
    have hsvv : (phoc_view_set_fullscreen w ctx true (some ())).1.view.saved
        = savedBoxOf w.view.box ctx.geom w.view.scale := by
      rw [hsv1, if_pos hnf]
    have hemp : wlr_box_empty
        (phoc_view_set_fullscreen w ctx true (some ())).1.view.saved = true := by
      rw [hsvv]
      simp only [savedBoxOf, wlr_box_empty]
      simp
      omega
    exact eempty ⟨hst1.trans hf, hemp⟩

/-- Collaborators with the auto-maximize policy enabled. -/
def c2Ctx : ViewCtx :=
  { geom := ⟨0, 0, 0, 0⟩, wantAutoMaximize := true, wantScaling := false,
    globalScaleToFit := false, hasFocus := true }

/-- C2 counterexample: under the auto-maximize policy, a floating view
that enters and leaves fullscreen is NOT left floating: the exit path's
final `view_auto_maximize` re-maximizes it, so the state it held
immediately before entering fullscreen is not preserved. -/
theorem set_fullscreen_roundtrip_cex :
    exWorld.view.state = PhocViewState.floating
    ∧ (phoc_view_set_fullscreen
        (phoc_view_set_fullscreen exWorld c2Ctx true (some ())).1
        c2Ctx false none).1.view.state = PhocViewState.maximized := by
  refine ⟨rfl, ?_⟩
  have hne1 : (PhocViewState.floating = PhocViewState.maximized) = False := by simp
  have hne2 : (PhocViewState.maximized = PhocViewState.floating) = False := by simp
  have hne3 : (PhocViewState.maximized = PhocViewState.tiled) = False := by simp
  have hne4 : (PhocViewState.floating = PhocViewState.tiled) = False := by simp
  norm_num [hne1, hne2, hne3, hne4, phoc_view_set_fullscreen, phoc_view_is_mapped,
    view_is_fullscreen, view_save, view_is_floating, view_is_maximized, view_is_tiled,
    view_get_output, view_auto_maximize, view_maximize, view_arrange_maximized,
    phoc_view_get_maximized_box, phoc_view_move_resize, phoc_view_resize, phoc_view_move,
    view_update_position, wlr_box_empty, ctrunc, exWorld, exViewFloating, exOutput, c2Ctx,
    Int.ceil_intCast, Int.floor_intCast, Int.ceil_neg, Int.floor_neg, reduceCtorEq,
    reduceIte]

/-- C2 witness: a concrete floating view round-trips through fullscreen
with its state preserved and the slot freed. -/
theorem set_fullscreen_roundtrip_witness :
    exWorld.output = some exOutput ∧
    exWorld.view.fullscreenOnOutput = false ∧
    exCtx.wantAutoMaximize = false ∧
    (phoc_view_set_fullscreen (phoc_view_set_fullscreen exWorld exCtx true (some ())).1
        exCtx false none).1.view.state = exWorld.view.state ∧
    (phoc_view_set_fullscreen (phoc_view_set_fullscreen exWorld exCtx true (some ())).1
        exCtx false none).1.output = some { exOutput with fullscreenView := false } := by
  have h := set_fullscreen_roundtrip exWorld exCtx exOutput rfl rfl rfl rfl
  exact ⟨rfl, rfl, rfl, h.1, h.2.2.1⟩

end Phoc
